import Mathlib

set_option allowUnsafeReducibility true in
attribute [semireducible] Rat.mul Rat.add Rat.sub Rat.inv Rat.ofScientific

set_option maxRecDepth 8000
set_option maxHeartbeats 1600000

/-!
Verification development for the mutual-fund factsheet extraction backend
(`src/backend.py`).  Python semantics are shallowly embedded: Python `str`
becomes `String` (ASCII-faithful helpers below), `float` becomes `ℚ`
(every numeric literal and operation appearing in the claims is exact in
`ℚ`), `None`-able values become `Option`, dicts become association lists
in insertion order, and caught exceptions become total functions returning
the handler's value.
-/

namespace MiraiMF

/-- Python whitespace (the default set of `str.strip`, ASCII part). -/
def isPyWs (c : Char) : Bool :=
  c = ' ' || c = '\t' || c = '\n' || c = '\r' || c = '\x0b' || c = '\x0c'

/-- `str.strip()` on a character list. -/
def stripChars (cs : List Char) : List Char :=
  ((cs.dropWhile isPyWs).reverse.dropWhile isPyWs).reverse

/-- Python `str.strip()`. -/
def pyStrip (s : String) : String := ⟨stripChars s.data⟩

/-- Python `str.lower()` (ASCII). -/
def pyLower (s : String) : String := ⟨s.data.map Char.toLower⟩

/-- Python `str.upper()` (ASCII). -/
def pyUpper (s : String) : String := ⟨s.data.map Char.toUpper⟩

/-- Is `pre` a prefix of `l`? (Python `str.startswith`.) -/
def isPre : List Char → List Char → Bool
  | [], _ => true
  | _ :: _, [] => false
  | a :: as, b :: bs => a = b && isPre as bs

/-- Does `hay` contain `needle` as a contiguous substring?
Python's `needle in hay`; in particular the empty needle is contained in
every string. -/
def listHasSub : List Char → List Char → Bool
  | hay, needle =>
    isPre needle hay ||
      match hay with
      | [] => false
      | _ :: t => listHasSub t needle

/-- Python `needle in hay` on strings. -/
def strHasSub (hay needle : String) : Bool := listHasSub hay.data needle.data

/-- Python `str.startswith` on strings. -/
def pyStartsWith (s pre : String) : Bool := isPre pre.data s.data

/-- Python `str.endswith` on strings. -/
def pyEndsWith (s suf : String) : Bool := isPre suf.data.reverse s.data.reverse

/-- Helper for `countSub`, fuelled (fuel ≥ hay length + 1 suffices). -/
def countSubAux : Nat → List Char → List Char → Nat
  | 0, _, _ => 0
  | _ + 1, [], _ => 0
  | fuel + 1, h :: t, n =>
    if isPre n (h :: t) then 1 + countSubAux fuel ((h :: t).drop (max n.length 1)) n
    else countSubAux fuel t n

/-- Python `hay.count(needle)` for a non-empty needle: non-overlapping
occurrences, scanning left to right. -/
def countSub (hay needle : String) : Nat :=
  countSubAux (hay.data.length + 1) hay.data needle.data

/-- One step of `re.sub(r"\s+", " ", ·)`: every maximal whitespace run
becomes a single space. -/
def collapseWsAux : Nat → List Char → List Char
  | 0, _ => []
  | _ + 1, [] => []
  | fuel + 1, c :: t =>
    if isPyWs c then ' ' :: collapseWsAux fuel (t.dropWhile isPyWs)
    else c :: collapseWsAux fuel t

/-- Python `re.sub(r"\s+", " ", s)`. -/
def collapseWs (s : String) : String := ⟨collapseWsAux (s.data.length + 1) s.data⟩

/-- Python `str.title()` (ASCII): the first letter of every maximal run of
letters is uppercased, the following letters lowercased; other characters
pass through and end a run. -/
def pyTitleAux : Bool → List Char → List Char
  | _, [] => []
  | prev, c :: t =>
    if c.isAlpha then (if prev then c.toLower else c.toUpper) :: pyTitleAux true t
    else c :: pyTitleAux false t

/-- Python `str.title()`. -/
def pyTitle (s : String) : String := ⟨pyTitleAux false s.data⟩

/-- A table cell as returned by the PDF library: `None` or a string. -/
abbrev Cell := Option String

/-- Python truthiness of an optional string: `None` and `""` are falsy. -/
def cellFalsy : Cell → Bool
  | none => true
  | some s => s = ""

/-- Python `str(·)` on an optional string (`str(None) = "None"`). -/
def cellStr : Cell → String
  | none => "None"
  | some s => s

/-- Python truthiness of an optional rational (`None` and `0.0` are falsy). -/
def ratFalsy : Option ℚ → Bool
  | none => true
  | some q => q = 0

/-- Value of a list of ASCII digits read in base 10. -/
def digitsVal (ds : List Char) : Nat :=
  ds.foldl (fun a c => a * 10 + (c.toNat - 48)) 0

/-- Greedily take a run of digits in which single underscores may stand
between digits (Python numeric-literal grouping).  Returns the digits (the
underscores dropped) and the rest.  An ill-placed underscore is left in the
rest, so the enclosing parser fails on it exactly as Python `float` does. -/
def takeDigitsU : Nat → List Char → (List Char × List Char)
  | 0, cs => ([], cs)
  | _ + 1, [] => ([], [])
  | fuel + 1, c :: t =>
    if c.isDigit then
      match t with
      | '_' :: d :: t2 =>
        if d.isDigit then
          let (ds, rest) := takeDigitsU fuel (d :: t2)
          (c :: ds, rest)
        else (c :: [], '_' :: d :: t2)
      | _ =>
        let (ds, rest) := takeDigitsU fuel t
        (c :: ds, rest)
    else ([], c :: t)

/-- Python `float(s)` on finite decimal literals, as an exact rational:
optional surrounding whitespace, optional sign, `digits[.digits]` or
`.digits`, optional exponent.  Non-finite literals (`inf`, `nan`) are not
modelled (no claim touches them); for them and for every other
non-literal the result is `none`, the embedding of `ValueError`. -/
def pyFloat (s : String) : Option ℚ :=
  let cs := stripChars s.data
  let (sgn, cs) :=
    match cs with
    | '+' :: t => ((1 : ℚ), t)
    | '-' :: t => ((-1 : ℚ), t)
    | _ => ((1 : ℚ), cs)
  let (ip, cs) := takeDigitsU (cs.length + 1) cs
  let (fp, cs) :=
    match cs with
    | '.' :: t =>
      let (ds, rest) := takeDigitsU (t.length + 1) t
      (some ds, rest)
    | _ => (none, cs)
  if ip.isEmpty && (fp.getD []).isEmpty then none
  else
    let mantissa : ℚ :=
      (digitsVal ip : ℚ) +
        (digitsVal (fp.getD []) : ℚ) / ((10 : ℚ) ^ (fp.getD []).length)
    match cs with
    | [] => some (sgn * mantissa)
    | e :: t =>
      if e = 'e' || e = 'E' then
        let (esgn, t) :=
          match t with
          | '+' :: t2 => (true, t2)
          | '-' :: t2 => (false, t2)
          | _ => (true, t)
        let (eds, t) := takeDigitsU (t.length + 1) t
        if eds.isEmpty || !t.isEmpty then none
        else
          let p : ℚ := (10 : ℚ) ^ digitsVal eds
          some (sgn * mantissa * (if esgn then p else 1 / p))
      else none

/-- Remove every occurrence of the characters in `bad` (a chain of Python
`str.replace(c, "")`). -/
def removeChars (bad : List Char) (s : String) : String :=
  ⟨s.data.filter (fun c => !bad.contains c)⟩

/-!
A small backtracking regular-expression engine, used to embed the `re`
patterns of `src/backend.py` one by one.  Alternatives are produced in
Python's priority order (greedy repetition first, alternation left to
right), and `reSearch` scans start positions left to right, so the head of
the alternative list is exactly the match Python's `re.search` returns.
Repetition is handled by `starLoop`, whose fuel (the string length plus
one) bounds the number of consuming steps and never changes the result.
-/

/-- Regular expressions over characters, with numbered capture groups. -/
inductive RE where
  | eps : RE
  | chc : (Char → Bool) → RE
  | cat : RE → RE → RE
  | alt : RE → RE → RE
  | grp : Nat → RE → RE
  | star : RE → RE
  | eos : RE

/-- The greedy repetition of a fixed prefix-matcher `m`: try one more
step (a step must consume at least one character, as in Python's regex
engine for a zero-width repetition) and then repeat, else stop.  Fuelled
by the string length, which bounds the number of consuming steps. -/
def starLoop (m : List Char → List (List Char × List (Nat × String))) :
    Nat → List Char → List (List Char × List (Nat × String))
  | 0, s => [(s, [])]
  | fuel + 1, s =>
    ((m s).flatMap fun p1 =>
      if p1.1.length < s.length then
        (starLoop m fuel p1.1).map fun p2 => (p2.1, p1.2 ++ p2.2)
      else []) ++ [(s, [])]

/-- All ways `r` can match a prefix of `s`, in priority order: each result
is the remaining suffix together with the captured groups. -/
def matchR : RE → List Char → List (List Char × List (Nat × String))
  | .eps, s => [(s, [])]
  | .chc _, [] => []
  | .chc p, c :: cs => if p c then [(cs, [])] else []
  | .cat r1 r2, s =>
    (matchR r1 s).flatMap fun p1 =>
      (matchR r2 p1.1).map fun p2 => (p2.1, p1.2 ++ p2.2)
  | .alt r1 r2, s => matchR r1 s ++ matchR r2 s
  | .grp n r, s =>
    (matchR r s).map fun p =>
      (p.1, p.2 ++ [(n, ⟨s.take (s.length - p.1.length)⟩)])
  | .star r, s => starLoop (matchR r) (s.length + 1) s
  | .eos, s => if s.isEmpty then [(s, [])] else []

/-- `r?` (greedy). -/
def REopt (r : RE) : RE := .alt r .eps

/-- `r+` (greedy). -/
def REplus (r : RE) : RE := .cat r (.star r)

/-- `r{n}`. -/
def REexact : Nat → RE → RE
  | 0, _ => .eps
  | n + 1, r => .cat r (REexact n r)

/-- A literal character. -/
def REchr (c : Char) : RE := .chc (· = c)

/-- A literal character, case-insensitively (`re.IGNORECASE`). -/
def REchrCI (c : Char) : RE := .chc (fun d => d.toLower = c.toLower)

/-- A literal string built character by character with `f`. -/
def litWith (f : Char → RE) (s : String) : RE :=
  s.data.foldr (fun c r => .cat (f c) r) .eps

/-- A literal string, case-sensitively. -/
def REstr (s : String) : RE := litWith REchr s

/-- A literal string under `re.IGNORECASE`. -/
def REstrCI (s : String) : RE := litWith REchrCI s

/-- `\d`. -/
def REdigit : RE := .chc Char.isDigit

/-- `\s`. -/
def REws : RE := .chc isPyWs

/-- `\w` (ASCII part: letters, digits, underscore). -/
def REword : RE := .chc (fun c => c.isAlphanum || c = '_')

/-- A character class given by a list of allowed characters. -/
def REcls (cs : List Char) : RE := .chc (fun c => cs.contains c)

/-- Try `r` at the start of `s`: Python's `re.match` restricted to the
first alternative.  Returns consumed length and groups. -/
def tryAt (r : RE) (s : List Char) : Option (Nat × List (Nat × String)) :=
  match matchR r s with
  | [] => none
  | p :: _ => some (s.length - p.1.length, p.2)

/-- `re.search`: leftmost match; returns its captured groups. -/
def reSearchL : RE → List Char → Option (List (Nat × String))
  | r, s =>
    match tryAt r s with
    | some (_, g) => some g
    | none =>
      match s with
      | [] => none
      | _ :: t => reSearchL r t

/-- `re.search` over a string. -/
def reSearch (r : RE) (s : String) : Option (List (Nat × String)) :=
  reSearchL r s.data

/-- Group `n` of a match (`""` when the group is absent, as in
`re.findall` tuples). -/
def grpGet (gs : List (Nat × String)) (n : Nat) : String :=
  ((gs.find? (fun p => p.1 = n)).map Prod.snd).getD ""

/-- Helper for `reFindAll`, fuelled by the remaining length. -/
def reFindAllAux : Nat → RE → List Char → List (List (Nat × String))
  | 0, _, _ => []
  | fuel + 1, r, s =>
    match tryAt r s with
    | some (k, g) => g :: reFindAllAux fuel r (s.drop (max k 1))
    | none =>
      match s with
      | [] => []
      | _ :: t => reFindAllAux fuel r t

/-- `re.findall`: non-overlapping matches, scanning left to right and
resuming after each match (advancing one character past a zero-width
match, as Python does). -/
def reFindAll (r : RE) (s : String) : List (List (Nat × String)) :=
  reFindAllAux (s.data.length + 1) r s.data


/-!
The `ISINMapper` of `src/backend.py` (lines 24-343).  The built-in
database `BUILTIN_ISIN_DB` is a Python dict literal with pairwise distinct
keys; it is embedded as an association list in insertion order, which is
also the iteration order of `get_isin`'s fuzzy loop.  No external CSV is
modelled: the claims concern the mapper as built without one.
-/

/-- `ISINMapper.BUILTIN_ISIN_DB` (lines 28-228), in source order. -/
def builtinIsinDb : List (String × String) := [
  ("hdfc bank", "INE040A01034"),
  ("icici bank", "INE090A01021"),
  ("state bank of india", "INE062A01020"),
  ("sbi", "INE062A01020"),
  ("axis bank", "INE238A01034"),
  ("kotak mahindra bank", "INE237A01028"),
  ("indusind bank", "INE095A01012"),
  ("federal bank", "INE171A01029"),
  ("bandhan bank", "INE545U01014"),
  ("idfc first bank", "INE092T01019"),
  ("tata consultancy services", "INE467B01029"),
  ("tcs", "INE467B01029"),
  ("infosys", "INE009A01021"),
  ("wipro", "INE075A01022"),
  ("hcl technologies", "INE860A01027"),
  ("tech mahindra", "INE669C01036"),
  ("ltimindtree", "INE214T01019"),
  ("coforge", "INE591G01017"),
  ("persistent systems", "INE262H01013"),
  ("mphasis", "INE356A01018"),
  ("bajaj finance", "INE296A01024"),
  ("bajaj finserv", "INE918I01018"),
  ("hdfc life insurance", "INE795G01014"),
  ("sbi life insurance", "INE123W01016"),
  ("icici prudential life", "INE726G01019"),
  ("cholamandalam investment", "INE121A01024"),
  ("shriram finance", "INE721A01013"),
  ("muthoot finance", "INE414G01012"),
  ("angel one", "INE732I01013"),
  ("maruti suzuki", "INE585B01010"),
  ("tata motors", "INE155A01022"),
  ("mahindra & mahindra", "INE101A01026"),
  ("m&m", "INE101A01026"),
  ("bajaj auto", "INE917I01010"),
  ("hero motocorp", "INE158A01026"),
  ("eicher motors", "INE066A01021"),
  ("tvs motor company", "INE494B01023"),
  ("ashok leyland", "INE208A01029"),
  ("samvardhana motherson", "INE775A01035"),
  ("samvardhana motherson international", "INE775A01035"),
  ("sun pharmaceutical", "INE044A01036"),
  ("sun pharma", "INE044A01036"),
  ("dr reddys laboratories", "INE089A01023"),
  ("cipla", "INE059A01026"),
  ("divi's laboratories", "INE361B01024"),
  ("lupin", "INE326A01037"),
  ("aurobindo pharma", "INE406A01037"),
  ("biocon", "INE376G01013"),
  ("mankind pharma", "INE634S01028"),
  ("torrent pharmaceuticals", "INE685A01028"),
  ("hindustan unilever", "INE030A01027"),
  ("hul", "INE030A01027"),
  ("itc", "INE154A01025"),
  ("nestle india", "INE239A01016"),
  ("britannia industries", "INE216A01030"),
  ("dabur india", "INE016A01026"),
  ("marico", "INE196A01026"),
  ("godrej consumer products", "INE102D01028"),
  ("colgate palmolive", "INE259A01022"),
  ("tata consumer products", "INE192A01025"),
  ("reliance industries", "INE002A01018"),
  ("ongc", "INE213A01029"),
  ("oil india", "INE274J01014"),
  ("indian oil corporation", "INE242A01010"),
  ("ioc", "INE242A01010"),
  ("bharat petroleum", "INE029A01011"),
  ("bpcl", "INE029A01011"),
  ("gail india", "INE129A01019"),
  ("bharti airtel", "INE397D01024"),
  ("jio financial services", "INE758E01017"),
  ("indus towers", "INE121J01017"),
  ("tata steel", "INE081A01020"),
  ("jsw steel", "INE019A01038"),
  ("hindalco industries", "INE038A01020"),
  ("vedanta", "INE205A01025"),
  ("coal india", "INE522F01014"),
  ("nmdc", "INE584A01023"),
  ("ntpc", "INE733E01010"),
  ("power grid corporation", "INE752E01010"),
  ("adani power", "INE814H01011"),
  ("tata power", "INE245A01021"),
  ("adani green energy", "INE364U01010"),
  ("larsen & toubro", "INE018A01030"),
  ("l&t", "INE018A01030"),
  ("siemens", "INE003A01024"),
  ("abb india", "INE117A01022"),
  ("bharat heavy electricals", "INE257A01026"),
  ("bhel", "INE257A01026"),
  ("cummins india", "INE298A01020"),
  ("titan company", "INE280A01028"),
  ("titan", "INE280A01028"),
  ("havells india", "INE176B01034"),
  ("voltas", "INE226A01021"),
  ("whirlpool of india", "INE716A01013"),
  ("crompton greaves consumer", "INE299U01018"),
  ("dixon technologies", "INE935N01020"),
  ("dixon technologies (india)", "INE935N01020"),
  ("amber enterprises", "INE371P01015"),
  ("amber enterprises india", "INE371P01015"),
  ("kalyan jewellers", "INE303R01014"),
  ("kalyan jewellers india", "INE303R01014"),
  ("dlf", "INE271C01023"),
  ("godrej properties", "INE484J01027"),
  ("oberoi realty", "INE093I01010"),
  ("prestige estates projects", "INE811K01011"),
  ("prestige estates", "INE811K01011"),
  ("phoenix mills", "INE211B01039"),
  ("the phoenix mills", "INE211B01039"),
  ("brigade enterprises", "INE791I01019"),
  ("sobha", "INE671H01015"),
  ("macrotech developers", "INE670K01029"),
  ("bse", "INE118H01025"),
  ("bse ltd", "INE118H01025"),
  ("mcx", "INE745G01035"),
  ("multi commodity exchange", "INE745G01035"),
  ("multi commodity exchange of india", "INE745G01035"),
  ("icici securities", "INE763G01038"),
  ("cams", "INE596I01012"),
  ("kfin technologies", "INE138Y01010"),
  ("religare enterprises", "INE621H01010"),
  ("hindustan aeronautics", "INE066F01020"),
  ("hal", "INE066F01020"),
  ("bharat electronics", "INE263A01024"),
  ("bel", "INE263A01024"),
  ("bharat dynamics", "INE171Z01018"),
  ("zen technologies", "INE251B01027"),
  ("data patterns", "INE822Q01010"),
  ("paras defence", "INE114S01016"),
  ("cg power and industrial solutions", "INE067A01029"),
  ("cg power", "INE067A01029"),
  ("ge vernova t&d india", "INE200A01026"),
  ("ge vernova", "INE200A01026"),
  ("ge t&d india", "INE200A01026"),
  ("suzlon energy", "INE040H01021"),
  ("inox wind", "INE066P01011"),
  ("premier energies", "INE555Y01016"),
  ("waaree energies", "INE377N01016"),
  ("apar industries", "INE372A01015"),
  ("polycab india", "INE455K01017"),
  ("kaynes technology", "INE918Z01012"),
  ("kaynes technology india", "INE918Z01012"),
  ("thermax", "INE152A01029"),
  ("grindwell norton", "INE536A01023"),
  ("titagarh rail systems", "INE615H01020"),
  ("ptc industries", "INE591D01018"),
  ("asian paints", "INE021A01026"),
  ("pidilite industries", "INE318A01026"),
  ("upl", "INE628A01036"),
  ("srf", "INE647A01010"),
  ("gujarat fluorochemicals", "INE538A01037"),
  ("navin fluorine", "INE048G01026"),
  ("deepak nitrite", "INE288B01029"),
  ("avenue supermarts", "INE192R01011"),
  ("dmart", "INE192R01011"),
  ("trent", "INE849A01020"),
  ("trent ltd", "INE849A01020"),
  ("zomato", "INE758T01015"),
  ("swiggy", "INE044G01017"),
  ("nykaa", "INE388Y01029"),
  ("fsn e-commerce ventures", "INE388Y01029"),
  ("devyani international", "INE872J01015"),
  ("v2 retail", "INE945K01017")
]


/-- The corporate suffixes stripped by `_normalize_name` (lines 287-291),
in source order. -/
def nameSuffixes : List String :=
  [" limited", " ltd", " ltd.", " pvt", " private",
   " public", " inc", " corp", " corporation",
   " (india)", " india", " & co", " co."]

/-- The suffix-stripping loop of `_normalize_name` (lines 293-295): each
suffix is tried once, in order, and removed if the name currently ends
with it. -/
def stripSuffixes (s : String) : String :=
  nameSuffixes.foldl
    (fun n suf =>
      if pyEndsWith n suf then ⟨n.data.take (n.data.length - suf.data.length)⟩ else n)
    s

/-- `\w` or `\s` (ASCII): kept by `re.sub(r"[^\w\s]", "", ·)`. -/
def isWordOrWs (c : Char) : Bool := c.isAlphanum || c = '_' || isPyWs c

/-- `ISINMapper._normalize_name` (lines 281-301): lower-case and strip,
drop known corporate suffixes, remove non-word non-space characters,
collapse whitespace runs and strip again. -/
def normalizeName (name : String) : String :=
  let n := pyStrip (pyLower name)
  let n := stripSuffixes n
  let n : String := ⟨n.data.filter isWordOrWs⟩
  pyStrip (collapseWs n)

/-!
`ISINMapper._similarity` (lines 303-305) calls
`difflib.SequenceMatcher(None, a, b).ratio()`.  The embedding below
reproduces difflib's algorithm for the junk-free case, which is the only
case that arises: `isjunk` is `None`, and the `autojunk` heuristic only
applies when the second sequence has at least 200 elements, longer than
every catalog key.  Floats are embedded as exact rationals; every
comparison the claims depend on is exact in both representations.
-/

/-- Positions of `c` in `b` restricted to `[blo, bhi)`, ascending: what
difflib's inner loop iterates (`b2j[a[i]]` filtered by the window). -/
def occIdx (b : List Char) (c : Char) (blo bhi : Nat) : List Nat :=
  (List.range b.length).filter
    (fun j => decide (blo ≤ j) && decide (j < bhi) && (b.getD j ' ' == c))

/-- One row of difflib's `find_longest_match` dynamic program: fold the
occurrence list of `a[i]`, building the new `j2len` table (keyed by `j`)
and updating the best block.  `j2len.get(j - 1, 0)` is looked up as the
entry whose key `k` satisfies `k + 1 = j`, which is also correct at
`j = 0`. -/
def flmRow (i : Nat) (js : List Nat) (j2len : List (Nat × Nat))
    (best : Nat × Nat × Nat) : List (Nat × Nat) × (Nat × Nat × Nat) :=
  js.foldl
    (fun acc j =>
      let k := (((j2len.find? (fun p => p.1 + 1 = j)).map Prod.snd).getD 0) + 1
      let acc1 := ((j, k) :: acc.1, acc.2)
      if k > acc1.2.2.2 then (acc1.1, (i + 1 - k, j + 1 - k, k)) else acc1)
    ([], best)

/-- The outer loop of `find_longest_match` over `i ∈ [alo, ahi)`. -/
def flmLoop (a b : List Char) (blo bhi : Nat) :
    List Nat → List (Nat × Nat) → Nat × Nat × Nat → Nat × Nat × Nat
  | [], _, best => best
  | i :: is, j2len, best =>
    let js := occIdx b (a.getD i ' ') blo bhi
    let (j2len', best') := flmRow i js j2len best
    flmLoop a b blo bhi is j2len' best'

/-- Equality of in-range characters `a[i] == b[j]`. -/
def chEq (a b : List Char) (i j : Nat) : Bool :=
  match a.get? i, b.get? j with
  | some x, some y => x == y
  | _, _ => false

/-- difflib's first extension loop: extend the best block to the left
over equal characters (`isbjunk` is constantly false here).  Fuelled by
`besti`, which bounds the number of steps. -/
def extendL (a b : List Char) (alo blo : Nat) :
    Nat → Nat → Nat → Nat → Nat × Nat × Nat
  | 0, bi, bj, bs => (bi, bj, bs)
  | fuel + 1, bi, bj, bs =>
    if bi > alo && bj > blo && chEq a b (bi - 1) (bj - 1) then
      extendL a b alo blo fuel (bi - 1) (bj - 1) (bs + 1)
    else (bi, bj, bs)

/-- difflib's second extension loop: extend the best block to the right
over equal characters. -/
def extendR (a b : List Char) (ahi bhi : Nat) :
    Nat → Nat → Nat → Nat → Nat
  | 0, _, _, bs => bs
  | fuel + 1, bi, bj, bs =>
    if bi + bs < ahi && bj + bs < bhi && chEq a b (bi + bs) (bj + bs) then
      extendR a b ahi bhi fuel bi bj (bs + 1)
    else bs

/-- difflib `find_longest_match(alo, ahi, blo, bhi)` for the junk-free
case.  The two junk-adjacent extension loops of difflib require a junk
character to fire and are therefore omitted. -/
def findLongestMatch (a b : List Char) (alo ahi blo bhi : Nat) :
    Nat × Nat × Nat :=
  let best := flmLoop a b blo bhi (List.range' alo (ahi - alo)) [] (alo, blo, 0)
  let ext := extendL a b alo blo best.1 best.1 best.2.1 best.2.2
  let bs := extendR a b ahi bhi ahi ext.1 ext.2.1 ext.2.2
  (ext.1, ext.2.1, bs)

/-- Total size of difflib's matching blocks: `get_matching_blocks`'s
recursive splitting around each longest match, summed.  Fuelled; fuel
`(ahi - alo) + (bhi - blo) + 1` always suffices since each split strictly
shrinks the window. -/
def matchesRec (a b : List Char) : Nat → Nat → Nat → Nat → Nat → Nat
  | 0, _, _, _, _ => 0
  | fuel + 1, alo, ahi, blo, bhi =>
    let m := findLongestMatch a b alo ahi blo bhi
    if m.2.2 = 0 then 0
    else
      m.2.2 + matchesRec a b fuel alo m.1 blo m.2.1 +
        matchesRec a b fuel (m.1 + m.2.2) ahi (m.2.1 + m.2.2) bhi

/-- `SequenceMatcher(None, a, b).ratio()` as an exact rational:
`2 * M / (len(a) + len(b))`, and `1.0` when both are empty. -/
def seqRatio (a b : String) : ℚ :=
  let la := a.data.length
  let lb := b.data.length
  let m := matchesRec a.data b.data (la + lb + 1) 0 la 0 lb
  if la + lb = 0 then 1 else (2 * m : ℚ) / ((la : ℚ) + (lb : ℚ))

/-- Python `max(a, b)` on rationals: the first argument when it is at
least the second, else the second. -/
def pyMax (a b : ℚ) : ℚ := if a ≥ b then a else b

/-- The fuzzy loop of `get_isin` (lines 322-334): fold the catalog in
insertion order, score each key (a substring relationship in either
direction lifts the score to at least 0.85), and keep the first strictly
greater score, starting from `(None, 0)`. -/
def fuzzyBest (db : List (String × String)) (normalized : String) :
    Option String × ℚ :=
  db.foldl
    (fun best p =>
      let score := seqRatio normalized p.1
      let score :=
        if strHasSub p.1 normalized || strHasSub normalized p.1 then
          pyMax score 0.85
        else score
      if score > best.2 then (some p.2, score) else best)
    (none, 0)

/-- `ISINMapper.get_isin` (lines 307-339) with an explicit threshold: a
falsy name returns the sentinel, an exact normalized-key hit returns its
code, otherwise the fuzzy best is accepted at or above the threshold.
For any positive threshold a best score at or above it forces `best.1`
to be present, so the `getD` default is unreachable there. -/
def getIsinWith (db : List (String × String)) (threshold : ℚ)
    (companyName : String) : String :=
  if companyName = "" then "-"
  else
    let normalized := normalizeName companyName
    match db.find? (fun p => p.1 = normalized) with
    | some p => p.2
    | none =>
      let best := fuzzyBest db normalized
      if best.2 ≥ threshold then best.1.getD "-" else "-"

/-- `get_isin` at its default threshold `0.8`. -/
def getIsin (db : List (String × String)) (companyName : String) : String :=
  getIsinWith db 0.8 companyName


/-!
The `FactsheetExtractor` of `src/backend.py` (lines 360-1069).  The PDF
library (`pdfplumber`) is the external collaborator: a document is either
`corrupt` (opening/parsing it raises, the exception being caught where the
source catches it) or a list of pages, each carrying its extracted text
and candidate tables.  No external ISIN CSV is modelled; the catalog
parameter `db` is instantiated with `builtinIsinDb` in the claims.
-/

/-- `FactsheetExtractor.SECTOR_MAPPINGS` (lines 367-411), in source order. -/
def sectorMappings : List (String × String) := [
  ("it - software", "Information Technology"),
  ("it-software", "Information Technology"),
  ("information technology", "Information Technology"),
  ("software", "Information Technology"),
  ("banks", "Banking"),
  ("banking", "Banking"),
  ("private sector bank", "Banking"),
  ("public sector bank", "Banking"),
  ("finance", "Financial Services"),
  ("financial services", "Financial Services"),
  ("nbfc", "Financial Services"),
  ("pharmaceuticals & biotechnology", "Pharmaceuticals"),
  ("pharmaceuticals", "Pharmaceuticals"),
  ("pharma", "Pharmaceuticals"),
  ("healthcare", "Healthcare"),
  ("consumer durables", "Consumer Durables"),
  ("consumer goods", "Consumer Goods"),
  ("fmcg", "FMCG"),
  ("retailing", "Retailing"),
  ("retail", "Retailing"),
  ("auto components", "Automobile"),
  ("automobiles", "Automobile"),
  ("automobile", "Automobile"),
  ("auto", "Automobile"),
  ("telecom - services", "Telecom"),
  ("telecom", "Telecom"),
  ("telecommunications", "Telecom"),
  ("realty", "Real Estate"),
  ("real estate", "Real Estate"),
  ("construction", "Construction"),
  ("capital markets", "Capital Markets"),
  ("chemicals & petrochemicals", "Chemicals"),
  ("chemicals", "Chemicals"),
  ("industrial products", "Industrial Products"),
  ("industrial manufacturing", "Industrial Manufacturing"),
  ("aerospace & defense", "Aerospace & Defense"),
  ("defence", "Aerospace & Defense"),
  ("electrical equipment", "Electrical Equipment"),
  ("power", "Power"),
  ("oil & gas", "Oil & Gas"),
  ("energy", "Energy"),
  ("metals & mining", "Metals & Mining"),
  ("cement", "Cement & Construction Materials")
]

/-- `FactsheetExtractor.AMC_MAPPINGS` (lines 414-439), in source order. -/
def amcMappings : List (String × String) := [
  ("motilaloswal", "Motilal Oswal"),
  ("motilal oswal", "Motilal Oswal"),
  ("hdfc", "HDFC"),
  ("icici prudential", "ICICI Prudential"),
  ("sbi", "SBI"),
  ("axis", "Axis"),
  ("kotak", "Kotak"),
  ("nippon india", "Nippon India"),
  ("aditya birla", "Aditya Birla Sun Life"),
  ("dsp", "DSP"),
  ("tata", "Tata"),
  ("uti", "UTI"),
  ("franklin templeton", "Franklin Templeton"),
  ("mirae asset", "Mirae Asset"),
  ("pgim", "PGIM India"),
  ("invesco", "Invesco India"),
  ("edelweiss", "Edelweiss"),
  ("canara robeco", "Canara Robeco"),
  ("bandhan", "Bandhan"),
  ("quant", "Quant"),
  ("parag parikh", "PPFAS"),
  ("ppfas", "PPFAS"),
  ("groww", "Groww"),
  ("baroda bnp", "Baroda BNP Paribas")
]

/-- The static `sector_keywords` table of `_build_sector_keyword_map`
(lines 1003-1021).  The method ignores its `sector_allocation` argument
and returns this table unchanged (line 1023). -/
def sectorKeywords : List (String × List String) := [
  ("Banking", ["bank", "hdfc bank", "icici bank", "axis bank", "kotak", "sbi", "indusind", "federal bank"]),
  ("Information Technology", ["infosys", "tcs", "wipro", "tech mahindra", "hcl tech", "coforge", "ltimindtree", "persistent", "mphasis"]),
  ("Pharmaceuticals", ["pharma", "dr.", "cipla", "sun pharma", "lupin", "divi", "mankind", "aurobindo", "biocon"]),
  ("Financial Services", ["bajaj finance", "bajaj finserv", "cholamandalam", "shriram", "muthoot", "manappuram", "piramal", "angel one"]),
  ("Automobile", ["auto", "motor", "maruti", "tata motors", "mahindra", "hero motocorp", "bajaj auto", "tvs", "ashok leyland", "motherson", "samvardhana"]),
  ("FMCG", ["hindustan unilever", "itc", "nestle", "britannia", "dabur", "marico", "godrej consumer", "colgate", "p&g"]),
  ("Telecom", ["bharti airtel", "jio", "vodafone", "indus towers", "telecom"]),
  ("Energy", ["reliance industries", "ongc", "oil india", "bpcl", "ioc", "gail", "ntpc", "power grid", "adani power", "tata power"]),
  ("Metals & Mining", ["tata steel", "jsw steel", "hindalco", "vedanta", "coal india", "nmdc", "hindustan zinc"]),
  ("Real Estate", ["dlf", "godrej properties", "oberoi realty", "prestige", "phoenix mills", "brigade", "sobha", "macrotech"]),
  ("Consumer Durables", ["titan", "havells", "voltas", "whirlpool", "crompton", "dixon", "amber", "kalyan jewellers", "v2 retail"]),
  ("Retailing", ["avenue supermarts", "trent", "dmart", "zomato", "swiggy", "nykaa", "tata consumer", "devyani"]),
  ("Capital Markets", ["bse", "mcx", "angel one", "icici securities", "exchange", "cams", "kfin", "religare"]),
  ("Aerospace & Defense", ["hal", "hindustan aeronautics", "bharat dynamics", "bharat electronics", "bel", "zen technologies", "paras defence", "data patterns"]),
  ("Electrical Equipment", ["abb", "siemens", "cg power", "ge vernova", "suzlon", "inox wind", "premier energies", "waaree", "apar", "polycab", "kaynes"]),
  ("Industrial Manufacturing", ["larsen", "l&t", "thermax", "cummins", "grindwell norton", "titagarh", "ptc industries"]),
  ("Chemicals", ["asian paints", "pidilite", "upl", "srf", "gujarat fluorochemicals", "navin fluorine", "deepak nitrite"])
]

/-- `normalize_sector` (lines 465-470): canonical sector lookup on the
lower-cased stripped name, else `str.title()` of the raw text; empty input
gives "Unknown". -/
def normalizeSector (sector : String) : String :=
  if sector = "" then "Unknown"
  else
    let sectorLower := pyStrip (pyLower sector)
    match sectorMappings.find? (fun p => p.1 = sectorLower) with
    | some p => p.2
    | none => pyTitle sector

/-- `normalize_amc` (lines 472-480): first mapping whose key is a
substring of the lower-cased stripped input wins, else `str.title()`;
empty input gives "Unknown". -/
def normalizeAmc (amc : String) : String :=
  if amc = "" then "Unknown"
  else
    let amcLower := pyStrip (pyLower amc)
    match amcMappings.find? (fun p => strHasSub amcLower p.1) with
    | some p => p.2
    | none => pyTitle amc

/-- The cleaning steps of `parse_percentage` (lines 482-494): strip `%`
and `,`, strip whitespace, map `(x)` to `-x`. -/
def percentCleaned (s : String) : String :=
  let cleaned := pyStrip (removeChars ['%', ','] s)
  if pyStartsWith cleaned "(" && pyEndsWith cleaned ")" then
    "-" ++ (⟨(cleaned.data.drop 1).dropLast⟩ : String)
  else cleaned

/-- The float conversion of `parse_percentage`, `0.0` on `ValueError`. -/
def parsePercentage (value : Cell) : ℚ :=
  if cellFalsy value then 0
  else (pyFloat (percentCleaned (cellStr value))).getD 0

/-- The cleaning steps of `parse_number` (lines 496-506): strip `,`,
backtick and the rupee sign, then whitespace. -/
def numberCleaned (s : String) : String :=
  pyStrip (removeChars [',', '`', '₹'] s)

/-- The decision steps of `parse_number`: falsy input, then the `-`, empty
and `na` markers, then the float conversion (`None` on `ValueError`). -/
def parseNumber (value : Cell) : Option ℚ :=
  if cellFalsy value then none
  else
    let cleaned := numberCleaned (cellStr value)
    if cleaned = "-" || cleaned = "" || pyLower cleaned = "na" then none
    else pyFloat cleaned

/-- Chain a list of regexes in sequence. -/
def reSeq (l : List RE) : RE := l.foldr .cat .eps

/-- The character class of a dash or a slash. -/
def REdashSlash : RE := REcls ['-', '/']

/-- The first pattern of `extract_date_from_filename` (line 512):
`(\d{6})\.pdf$` with `re.IGNORECASE`. -/
def pDateFile1 : RE :=
  reSeq [.grp 1 (REexact 6 REdigit), REchr '.', REstrCI "pdf", .eos]

/-- The second pattern of `extract_date_from_filename` (line 520):
`(\d{4})[-_]?(\d{2})`. -/
def pDateFile2 : RE :=
  reSeq [.grp 1 (REexact 4 REdigit), REopt (REcls ['-', '_']),
         .grp 2 (REexact 2 REdigit)]

/-- `extract_date_from_filename` (lines 508-526).  `nowYM` models
`datetime.now().strftime("%Y-%m-01")`, the fallback when neither pattern
matches; the try body cannot raise in this embedding, so the except
branch (also `nowYM`) is dead. -/
def extractDateFromFilename (nowYM : String) (filename : String) : String :=
  match reSearch pDateFile1 filename with
  | some gs =>
    let d := grpGet gs 1
    (⟨d.data.take 4⟩ : String) ++ "-" ++ (⟨d.data.drop 4⟩ : String) ++ "-01"
  | none =>
    match reSearch pDateFile2 filename with
    | some gs => grpGet gs 1 ++ "-" ++ grpGet gs 2 ++ "-01"
    | none => nowYM

/-- `os.path.splitext(·)[0]` for a bare filename: drop the part from the
last dot on, unless every character before that dot is itself a dot. -/
def splitExtBase (s : String) : String :=
  let cs := s.data
  match ((List.range cs.length).filter (fun i => cs.getD i ' ' == '.')).reverse with
  | [] => s
  | i :: _ => if (cs.take i).all (fun c => c == '.') then s else ⟨cs.take i⟩

/-- Python `str.split()` with no argument: split on whitespace runs,
dropping empty pieces. -/
def splitWsAux : Nat → List Char → List String
  | 0, _ => []
  | _ + 1, [] => []
  | fuel + 1, cs =>
    let cs2 := cs.dropWhile isPyWs
    match cs2 with
    | [] => []
    | _ =>
      let w := cs2.takeWhile (fun c => !isPyWs c)
      w.asString :: splitWsAux fuel (cs2.drop w.length)

/-- Python `s.split()`. -/
def pySplitWs (s : String) : List String := splitWsAux (s.data.length + 1) s.data

/-- `extract_amc_from_filename` (lines 528-538): drop the extension, turn
underscores into spaces, split on whitespace, normalize the first token;
no token gives "Unknown" (the try body cannot raise in this embedding). -/
def extractAmcFromFilename (filename : String) : String :=
  let base := splitExtBase filename
  let parts := pySplitWs ⟨base.data.map (fun c => if c = '_' then ' ' else c)⟩
  match parts with
  | p :: _ => normalizeAmc p
  | [] => "Unknown"

/-- `X\s*Cap` for a cap-size qualifier `X`, under `re.IGNORECASE`. -/
def capWith (w : String) : RE := reSeq [REstrCI w, .star REws, REstrCI "cap"]

/-- The cap-qualifier alternation of the first fund-name pattern
(line 543), alternatives in source order. -/
def capQualifier : RE :=
  .alt (reSeq [REstrCI "large", .star REws,
               REopt (.alt (REstrCI "and") (REchrCI '&')), .star REws,
               REstrCI "mid", .star REws, REstrCI "cap"])
    (.alt (capWith "large")
      (.alt (capWith "mid")
        (.alt (capWith "small")
          (.alt (capWith "multi") (capWith "flexi")))))

/-- First pattern of `extract_fund_name_from_text` (line 543),
`re.IGNORECASE`. -/
def pFund1 : RE :=
  .grp 1 (reSeq [REplus (.chc isWordOrWs), capQualifier, .star REws,
                 REstrCI "fund"])

/-- Second pattern of `extract_fund_name_from_text` (line 544),
`([\w\s]+Fund)` with `re.IGNORECASE`. -/
def pFund2 : RE :=
  .grp 1 (reSeq [REplus (.chc isWordOrWs), REstrCI "fund"])

/-- The pattern loop of `extract_fund_name_from_text` (lines 547-554):
first pattern whose match, stripped and whitespace-collapsed, is longer
than 10 characters and contains "fund" case-insensitively. -/
def fundNameFrom : List RE → String → String
  | [], _ => "Unknown Fund"
  | p :: ps, text =>
    match reSearch p text with
    | some gs =>
      let fundName := collapseWs (pyStrip (grpGet gs 1))
      if fundName.length > 10 && strHasSub (pyLower fundName) "fund" then fundName
      else fundNameFrom ps text
    | none => fundNameFrom ps text

/-- `extract_fund_name_from_text` (lines 540-556). -/
def extractFundNameFromText (text : String) : String :=
  fundNameFrom [pFund1, pFund2] text

/-- `([\d,]+\.?\d*)` as group 1: the amount group shared by the AUM
patterns. -/
def aumNumGroup : RE :=
  .grp 1 (reSeq [REplus (.chc (fun c => c.isDigit || c = ',')),
                 REopt (REchr '.'), .star REdigit])

/-- `[:\s]*`. -/
def colonWsStar : RE := .star (.chc (fun c => c = ':' || isPyWs c))

/-- `[`₹]?`. -/
def tickRupeeOpt : RE := REopt (REcls ['`', '₹'])

/-- `(?:Cr|Crore)` under `re.IGNORECASE`. -/
def crAlt : RE := .alt (REstrCI "cr") (REstrCI "crore")

/-- AUM pattern 1 (line 563):
``Latest\s+AUM[^`]*`\s*([\d,]+\.?\d*)\s*\(?[`₹]?\s*cr``. -/
def pAum1 : RE :=
  reSeq [REstrCI "latest", REplus REws, REstrCI "aum",
         .star (.chc (fun c => c != '`')), REchr '`', .star REws,
         aumNumGroup, .star REws, REopt (REchr '('), tickRupeeOpt,
         .star REws, REstrCI "cr"]

/-- AUM pattern 2 (line 565):
`AUM[:\s]*[`₹]?\s*([\d,]+\.?\d*)\s*(?:Cr|Crore)`. -/
def pAum2 : RE :=
  reSeq [REstrCI "aum", colonWsStar, tickRupeeOpt, .star REws,
         aumNumGroup, .star REws, crAlt]

/-- AUM pattern 3 (line 567): `Net\s+Assets[:\s]*...`. -/
def pAum3 : RE :=
  reSeq [REstrCI "net", REplus REws, REstrCI "assets", colonWsStar,
         tickRupeeOpt, .star REws, aumNumGroup, .star REws, crAlt]

/-- AUM pattern 4 (line 569): `Fund\s+Size[:\s]*...`. -/
def pAum4 : RE :=
  reSeq [REstrCI "fund", REplus REws, REstrCI "size", colonWsStar,
         tickRupeeOpt, .star REws, aumNumGroup, .star REws, crAlt]

/-- AUM pattern 5 (line 571): ``Monthly\s+AAUM[^`]*`...``. -/
def pAum5 : RE :=
  reSeq [REstrCI "monthly", REplus REws, REstrCI "aaum",
         .star (.chc (fun c => c != '`')), REchr '`', .star REws,
         aumNumGroup, .star REws, REopt (REchr '('), tickRupeeOpt,
         .star REws, REstrCI "cr"]

/-- `\d{1,3}` (greedy: three digits first). -/
def digits1to3 : RE :=
  .alt (REexact 3 REdigit) (.alt (REexact 2 REdigit) REdigit)

/-- AUM pattern 6 (line 573):
`(\d{1,3}(?:,\d{3})*\.?\d*)\s*\(?[`₹]?\s*cr\)?`. -/
def pAum6 : RE :=
  reSeq [.grp 1 (reSeq [digits1to3, .star (.cat (REchr ',') (REexact 3 REdigit)),
                        REopt (REchr '.'), .star REdigit]),
         .star REws, REopt (REchr '('), tickRupeeOpt, .star REws,
         REstrCI "cr", REopt (REchr ')')]

/-- The AUM patterns in the priority order of lines 561-574. -/
def aumPatterns : List RE := [pAum1, pAum2, pAum3, pAum4, pAum5, pAum6]

/-- The pattern loop of `extract_aum_from_text` (lines 576-588): first
pattern whose first match parses (commas removed) and lies in the sanity
range `[10, 1000000]`; a parse failure or an out-of-range value moves on
to the next pattern. -/
def aumFrom : List RE → String → Option ℚ
  | [], _ => none
  | p :: ps, text =>
    match reSearch p text with
    | some gs =>
      match pyFloat (removeChars [','] (grpGet gs 1)) with
      | some aum => if 10 ≤ aum && aum ≤ 1000000 then some aum else aumFrom ps text
      | none => aumFrom ps text
    | none => aumFrom ps text

/-- `extract_aum_from_text` (lines 558-588). -/
def extractAumFromText (text : String) : Option ℚ :=
  aumFrom aumPatterns text

/-- `\d{1,2}` (greedy). -/
def digits1to2 : RE := .alt (REexact 2 REdigit) REdigit

/-- `\d{2,4}` (greedy). -/
def digits2to4 : RE :=
  .alt (REexact 4 REdigit) (.alt (REexact 3 REdigit) (REexact 2 REdigit))

/-- The "as on" date pattern of line 629, `re.IGNORECASE`. -/
def pAsOn : RE :=
  reSeq [.alt (reSeq [REstrCI "as", REplus REws, REstrCI "on"])
           (.alt (reSeq [REstrCI "data", REplus REws, REstrCI "as",
                          REplus REws, REstrCI "on"])
              (reSeq [REstrCI "as", REplus REws, REstrCI "of"])),
         REplus (.chc (fun c => isPyWs c || c = ':')),
         .grp 1 (.alt (reSeq [digits1to2, REdashSlash, REplus REword,
                              REdashSlash, digits2to4])
                  (.alt (reSeq [digits1to2, REplus REws, REplus REword,
                                REplus REws, REexact 4 REdigit])
                     (reSeq [REexact 2 REdigit, REdashSlash,
                             REexact 2 REdigit, REdashSlash,
                             REexact 4 REdigit])))]

/-- One extracted holding before enrichment: the dict built by
`_parse_holding_row`, `_parse_two_column_table` and
`_extract_holdings_from_text`. -/
structure Holding where
  security : String
  isin : String
  sector : String
  pctOfAum : ℚ
  marketValue : Option ℚ
  quantity : Option ℚ
deriving DecidableEq, Repr

/-- The column-role map built by `_map_columns`: role name to column
index.  The Python dict never holds a key other than these six. -/
structure ColMap where
  security : Option Nat
  isin : Option Nat
  sector : Option Nat
  pctOfAum : Option Nat
  marketValue : Option Nat
  quantity : Option Nat
deriving DecidableEq, Repr

/-- The empty column map. -/
def emptyColMap : ColMap := ⟨none, none, none, none, none, none⟩

/-- The `column_patterns` table of `_map_columns` (lines 775-782), in
source order. -/
def colPatterns : List (String × List String) :=
  [("security", ["scrip", "security", "stock", "name", "holding", "company"]),
   ("isin", ["isin"]),
   ("sector", ["sector", "industry"]),
   ("pct_of_aum", ["weight", "%", "pct", "weightage", "allocation", "% of", "aum"]),
   ("market_value", ["market", "value", "mv", "amount"]),
   ("quantity", ["quantity", "qty", "units", "shares"])]

/-- Read a role field of the column map by its Python key. -/
def getField (m : ColMap) : String → Option Nat
  | "security" => m.security
  | "isin" => m.isin
  | "sector" => m.sector
  | "pct_of_aum" => m.pctOfAum
  | "market_value" => m.marketValue
  | "quantity" => m.quantity
  | _ => none

/-- Write a role field of the column map by its Python key. -/
def setField (m : ColMap) (f : String) (i : Nat) : ColMap :=
  match f with
  | "security" => { m with security := some i }
  | "isin" => { m with isin := some i }
  | "sector" => { m with sector := some i }
  | "pct_of_aum" => { m with pctOfAum := some i }
  | "market_value" => { m with marketValue := some i }
  | "quantity" => { m with quantity := some i }
  | _ => m

/-- `_map_columns` (lines 771-794): scan header cells left to right,
skipping falsy cells; for each role (in table order) whose keyword list
hits the lower-cased cell, record the first such column. -/
def mapColumns (headerRow : List Cell) : ColMap :=
  headerRow.enum.foldl
    (fun m p =>
      if cellFalsy p.2 then m
      else
        let cellLower := pyLower (cellStr p.2)
        colPatterns.foldl
          (fun m fp =>
            if fp.2.any (fun pat => strHasSub cellLower pat) &&
               (getField m fp.1).isNone then
              setField m fp.1 p.1
            else m)
          m)
    emptyColMap

/-- Line 800: `col_map.get('security') or col_map.get('scrip', 0)`.
The map never holds a `scrip` key, so a missing or falsy (zero) security
index falls back to column 0. -/
def securityIdxOf (m : ColMap) : Nat :=
  match m.security with
  | some i => if i = 0 then 0 else i
  | none => 0

/-- The exact-match skip labels of `_parse_holding_row` (line 803). -/
def rowLabelSkips : List String :=
  ["total", "grand total", "equity", "net receivables",
   "net receivables / (payables)"]

/-- `^IN[A-Z0-9]{10}$` (line 827). -/
def isIsinFormat (s : String) : Bool :=
  match s.data with
  | 'I' :: 'N' :: rest => rest.length = 10 && rest.all (fun c => c.isUpper || c.isDigit)
  | _ => false

/-- `_parse_holding_row` (lines 796-853).  Every index access in the
source is guarded, so the catch-all except (851-853) is dead in this
embedding.  `current_sector` is the constant "Unknown" at the only call
site (line 644, never reassigned). -/
def parseHoldingRow (row : List Cell) (colMap : ColMap)
    (currentSector : String) : Option Holding :=
  let securityIdx := securityIdxOf colMap
  let security : Option String :=
    if securityIdx < row.length && !cellFalsy (row.getD securityIdx none) then
      some (pyStrip (cellStr (row.getD securityIdx none)))
    else none
  match security with
  | none => none
  | some sec =>
    if sec = "" || rowLabelSkips.contains (pyLower sec) then none
    else
      let sec := collapseWs sec
      let pctOfAum :=
        match colMap.pctOfAum with
        | some i => if i < row.length then parsePercentage (row.getD i none) else 0
        | none => 0
      let sector :=
        match colMap.sector with
        | some i =>
          if i < row.length && !cellFalsy (row.getD i none) then
            pyStrip (cellStr (row.getD i none))
          else currentSector
        | none => currentSector
      let isin :=
        match colMap.isin with
        | some i =>
          if i < row.length && !cellFalsy (row.getD i none) then
            let v := pyStrip (cellStr (row.getD i none))
            if isIsinFormat v then v else ""
          else ""
        | none => ""
      let marketValue :=
        match colMap.marketValue with
        | some i => if i < row.length then parseNumber (row.getD i none) else none
        | none => none
      let quantity :=
        match colMap.quantity with
        | some i => if i < row.length then parseNumber (row.getD i none) else none
        | none => none
      some ⟨sec, isin, sector, pctOfAum, marketValue, quantity⟩

/-- The substring skip patterns of `_is_valid_security` (lines 751-756). -/
def securitySkipPatterns : List String :=
  ["total", "grand total", "equity", "net receivables",
   "scrip", "security", "stock", "weightage", "weight",
   "debt", "cash", "net current", "receivables", "payables",
   "equity & equity", "related", "holdings", "portfolio"]

/-- `_is_valid_security` (lines 743-769): non-empty, no structural skip
label as a substring of the lower-cased stripped name, length within
`[3, 100]`, and at least one letter. -/
def isValidSecurity (name : String) : Bool :=
  if name = "" then false
  else
    let nameLower := pyStrip (pyLower name)
    if securitySkipPatterns.any (fun pat => strHasSub nameLower pat) then false
    else if name.length < 3 || name.length > 100 then false
    else if !name.data.any Char.isAlpha then false
    else true

/-- One (name, weight) pair of a dual-block row (lines 708-739): a
truthy name cell that strips to a valid security with positive parsed
weight yields one holding with sector "Unknown" and empty ISIN. -/
def pairHoldings (secCell wCell : Cell) : List Holding :=
  if cellFalsy secCell then []
  else
    let sec := pyStrip (cellStr secCell)
    if sec != "" && isValidSecurity sec then
      let pct := parsePercentage wCell
      if pct > 0 then [⟨sec, "", "Unknown", pct, none, none⟩] else []
    else []

/-- `_parse_two_column_table` (lines 699-741): every data row below the
header contributes its left (columns 0-1) and, when the row has at least
four cells, right (columns 2-3) pair. -/
def parseTwoColumnTable (table : List (List Cell)) (headerIdx : Nat) :
    List Holding :=
  (table.drop (headerIdx + 1)).flatMap fun row =>
    if row.length < 2 then []
    else
      (if row.length ≥ 2 then pairHoldings (row.getD 0 none) (row.getD 1 none)
       else []) ++
      (if row.length ≥ 4 then pairHoldings (row.getD 2 none) (row.getD 3 none)
       else [])

/-- The header keywords of `_process_tables` (line 647). -/
def portfolioKeywords : List String :=
  ["scrip", "security", "stock", "holding", "weightage", "weight"]

/-- `' '.join(str(cell).lower() for cell in row if cell)` (line 661). -/
def rowJoinedText (row : List Cell) : String :=
  String.intercalate " "
    ((row.filter (fun c => !cellFalsy c)).map (fun c => pyLower (cellStr c)))

/-- The header scan of `_process_tables` (lines 659-669) over the
enumerated first three rows: the first non-empty row whose joined text
contains a portfolio keyword is the header; a row with two "scrip"
occurrences, or at least four columns and one "scrip", marks the
dual-block layout. -/
def findHeader : List (Nat × List Cell) → Option (Nat × List Cell × Bool)
  | [] => none
  | (idx, row) :: rest =>
    if row.isEmpty then findHeader rest
    else
      let rowText := rowJoinedText row
      if portfolioKeywords.any (fun kw => strHasSub rowText kw) then
        let scripCount := countSub rowText "scrip"
        let isTwoCol :=
          scripCount ≥ 2 || (row.length ≥ 4 && strHasSub rowText "scrip")
        some (idx, row, isTwoCol)
      else findHeader rest

/-- Line 681: `if not col_map.get('security') and not col_map.get('scrip')`.
`col_map` never holds a `scrip` key (see `colPatterns`), so the second
conjunct is constantly true and the test reduces to the truthiness of the
security index: absent, or present and equal to zero. -/
def securityMappingMissing (m : ColMap) : Bool :=
  match m.security with
  | none => true
  | some i => i = 0

/-- The per-table body of `_process_tables` (lines 649-691). -/
def tableHoldings (table : List (List Cell)) : List Holding :=
  if table.length < 2 then []
  else
    match findHeader (table.take 3).enum with
    | none => []
    | some (headerIdx, headerRow, isTwoCol) =>
      if isTwoCol then parseTwoColumnTable table headerIdx
      else
        let colMap := mapColumns headerRow
        if securityMappingMissing colMap then []
        else
          (table.drop (headerIdx + 1)).filterMap fun row =>
            if row.isEmpty then none
            else
              match parseHoldingRow row colMap "Unknown" with
              | some h => if h.security != "" then some h else none
              | none => none

/-- The name class of the text-fallback pattern (line 861):
`[A-Za-z\s&\.\(\)]`. -/
def textNameClass (c : Char) : Bool :=
  c.isAlpha || isPyWs c || c = '&' || c = '.' || c = '(' || c = ')'

/-- The text-fallback pattern (line 861):
`([A-Z][A-Za-z\s&\.\(\)]+(?:Ltd|Limited|Corp|Inc)?\.?)\s+(\d+\.\d+)`
(case-sensitive). -/
def pTextHolding : RE :=
  reSeq [.grp 1 (reSeq [.chc Char.isUpper, REplus (.chc textNameClass),
                        REopt (.alt (REstr "Ltd")
                          (.alt (REstr "Limited")
                            (.alt (REstr "Corp") (REstr "Inc")))),
                        REopt (REchr '.')]),
         REplus REws,
         .grp 2 (reSeq [REplus REdigit, REchr '.', REplus REdigit])]

/-- The noise words of `_extract_holdings_from_text` (line 874). -/
def textSkipWords : List String :=
  ["page", "total", "scheme", "fund", "year", "month", "return", "nav"]

/-- `_extract_holdings_from_text` (lines 855-887).  The regex guarantees
that the captured number parses, so the `getD 0` default is dead. -/
def extractHoldingsFromText (text : String) : List Holding :=
  (reFindAll pTextHolding text).filterMap fun gs =>
    let security := pyStrip (grpGet gs 1)
    let pct := (pyFloat (grpGet gs 2)).getD 0
    if security.length < 3 || pct > 100 || pct ≤ 0 then none
    else if textSkipWords.any (fun w => strHasSub (pyLower security) w) then none
    else some ⟨security, "", "Unknown", pct, none, none⟩

/-- `_process_tables` (lines 641-697): parse every candidate table, and
fall back to text extraction when no table yields a holding. -/
def processTables (tables : List (List (List Cell))) (fullText : String) :
    List Holding :=
  let holdings := tables.flatMap tableHoldings
  if holdings.isEmpty then extractHoldingsFromText fullText else holdings

/-- One page as delivered by the PDF library: extracted text (the
source's `page.extract_text() or ""`) and candidate tables. -/
structure PdfPage where
  text : String
  tables : List (List (List Cell))

/-- A document handed to the pipeline: either opening it raises
(`corrupt`), or it yields pages. -/
inductive PdfDoc where
  | corrupt : PdfDoc
  | pages : List PdfPage → PdfDoc

/-- The metadata dict of `extract_portfolio_table` (lines 596-601). -/
structure PdfMetadata where
  amc : String
  fundName : String
  date : String
  aumCr : Option ℚ
deriving DecidableEq, Repr

/-- `extract_portfolio_table` (lines 590-639).  For a `corrupt` document
the `pdfplumber.open` exception is caught at lines 636-638, merely
logged, and the initial empty holdings and metadata are returned.  Tables
are kept only when they have more than one row (line 616). -/
def extractPortfolioTable (doc : PdfDoc) : List Holding × PdfMetadata :=
  match doc with
  | .corrupt => ([], ⟨"", "", "", none⟩)
  | .pages ps =>
    let allText := ps.foldl (fun acc p => acc ++ p.text ++ "\n") ""
    let allTables := ps.flatMap (fun p => p.tables.filter (fun t => t.length > 1))
    let fundName := extractFundNameFromText allText
    let aum := extractAumFromText allText
    let date :=
      match reSearch pAsOn allText with
      | some gs => grpGet gs 1
      | none => ""
    let holdings := processTables allTables allText
    (holdings, ⟨"", fundName, date, aum⟩)

/-- The sector-allocation text pattern (line 900):
`([A-Za-z\s&\-]+)\s+(\d+\.?\d*)%`. -/
def pSectorAlloc : RE :=
  reSeq [.grp 1 (REplus (.chc (fun c => c.isAlpha || isPyWs c || c = '&' || c = '-'))),
         REplus REws,
         .grp 2 (reSeq [REplus REdigit, REopt (REchr '.'), .star REdigit]),
         REchr '%']

/-- `extract_sector_allocation` (lines 889-916): per page, every match
with a stripped sector name longer than three characters and a percentage
in `(0, 100]` records the first percentage seen for its normalized
sector; a `corrupt` document is caught and yields the empty map. -/
def extractSectorAllocation (doc : PdfDoc) : List (String × ℚ) :=
  match doc with
  | .corrupt => []
  | .pages ps =>
    ps.foldl
      (fun alloc page =>
        (reFindAll pSectorAlloc page.text).foldl
          (fun alloc gs =>
            let sector := pyStrip (grpGet gs 1)
            let pct := (pyFloat (grpGet gs 2)).getD 0
            if sector.length > 3 && pct > 0 && pct ≤ 100 then
              let ns := normalizeSector sector
              if (alloc.find? (fun p => p.1 = ns)).isNone then alloc ++ [(ns, pct)]
              else alloc
            else alloc)
          alloc)
      []

/-- `_guess_sector` (lines 1025-1033) over the static keyword table:
first sector (in table order) one of whose keywords is a substring of the
lower-cased security name, else "Other". -/
def guessSector (security : String) : String :=
  let securityLower := pyLower security
  match sectorKeywords.find? (fun p => p.2.any (fun kw => strHasSub securityLower kw)) with
  | some p => p.1
  | none => "Other"

/-- Round half to even at the integers. -/
def roundHalfEven (x : ℚ) : ℤ :=
  let f := Int.floor x
  let r := x - f
  if r < 1 / 2 then f
  else if r > 1 / 2 then f + 1
  else if f % 2 = 0 then f else f + 1

/-- Python `round(x, 2)` on the exact rationals of this embedding:
banker's rounding at two decimals.  (No claim depends on a value where
binary-float rounding and exact rounding differ.) -/
def round2 (x : ℚ) : ℚ := (roundHalfEven (x * 100) : ℚ) / 100

/-- Lines 966-970 of `process_pdf`: when the AUM is truthy and the weight
is positive, a falsy market value (unset or `0.0`) is replaced by
`round((pct / 100) * aum, 2)`; otherwise the value is untouched. -/
def computeMarketValue (aumCr : Option ℚ) (h : Holding) : Option ℚ :=
  if !ratFalsy aumCr && h.pctOfAum > 0 then
    if ratFalsy h.marketValue then
      some (round2 (h.pctOfAum / 100 * aumCr.getD 0))
    else h.marketValue
  else h.marketValue

/-- The enrichment loop body of `process_pdf` (lines 956-970): sector
guess or normalization, ISIN resolution for a blank ISIN, market-value
computation. -/
def enrichHolding (db : List (String × String)) (aumCr : Option ℚ)
    (h : Holding) : Holding :=
  let sector :=
    if h.sector = "Unknown" then guessSector h.security
    else normalizeSector h.sector
  let isin := if h.isin = "" then getIsin db h.security else h.isin
  let mv := computeMarketValue aumCr h
  { h with sector := sector, isin := isin, marketValue := mv }

/-- One `HoldingRecord` (lines 346-357): the final per-holding output
row. -/
structure HoldingRecord where
  date : String
  amc : String
  fundName : String
  security : String
  isin : String
  sector : String
  pctOfAum : ℚ
  marketValue : Option ℚ
  quantity : Option ℚ
deriving DecidableEq, Repr

/-- The result dict of `process_pdf` (lines 926-933). -/
structure PdfResult where
  success : Bool
  filename : String
  metadata : PdfMetadata
  holdings : List HoldingRecord
  sectorAllocation : List (String × ℚ)
  errors : List String
deriving Repr

/-- `process_pdf` (lines 918-997).  The try body cannot raise: every
callee catches its own exceptions (the filename extractors, the portfolio
and sector extractors) and the remaining steps are total, so the except
branch (lines 993-995) is dead, `success` is always true and `errors`
always empty.  `nowYM` models `datetime.now().strftime("%Y-%m-01")`. -/
def processPdf (db : List (String × String)) (nowYM : String) (doc : PdfDoc)
    (filename : String) : PdfResult :=
  let date := extractDateFromFilename nowYM filename
  let amc := extractAmcFromFilename filename
  let extracted := extractPortfolioTable doc
  let holdings := extracted.1
  let metadata0 := extracted.2
  let metadata :=
    { metadata0 with
      date := date
      amc := if amc != "Unknown" then amc else metadata0.amc }
  let sectorAllocation := extractSectorAllocation doc
  let aumCr := metadata.aumCr
  let enriched := holdings.map (enrichHolding db aumCr)
  let records := enriched.map fun h =>
    ({ date := date, amc := metadata.amc, fundName := metadata.fundName,
       security := h.security, isin := h.isin, sector := h.sector,
       pctOfAum := h.pctOfAum, marketValue := h.marketValue,
       quantity := h.quantity } : HoldingRecord)
  { success := true, filename := filename, metadata := metadata,
    holdings := records, sectorAllocation := sectorAllocation, errors := [] }

/-- One entry of the batch's `sector_allocations` list (lines 1054-1060):
filename, AMC, fund name, date, allocation. -/
structure SectorAllocEntry where
  filename : String
  amc : String
  fundName : String
  date : String
  allocation : List (String × ℚ)
deriving Repr

/-- The combined result of `process_multiple_pdfs` (lines 1064-1069). -/
structure BatchResult where
  holdings : List HoldingRecord
  metadata : List (String × PdfMetadata)
  sectorAllocations : List SectorAllocEntry
  errors : List String
deriving Repr

/-- The loop body of `process_multiple_pdfs` (lines 1045-1062): a
successful document appends its holdings, metadata and sector
allocation; a failed one appends its errors. -/
def batchStep (db : List (String × String)) (nowYM : String)
    (acc : BatchResult) (pf : PdfDoc × String) : BatchResult :=
  let result := processPdf db nowYM pf.1 pf.2
  if result.success then
    { acc with
      holdings := acc.holdings ++ result.holdings
      metadata := acc.metadata ++ [(pf.2, result.metadata)]
      sectorAllocations := acc.sectorAllocations ++
        [⟨pf.2, result.metadata.amc, result.metadata.fundName,
          result.metadata.date, result.sectorAllocation⟩] }
  else { acc with errors := acc.errors ++ result.errors }

/-- `process_multiple_pdfs` (lines 1035-1069): fold the batch in order,
concatenating holdings and metadata of successful documents and error
lists of failed ones. -/
def processMultiplePdfs (db : List (String × String)) (nowYM : String)
    (files : List (PdfDoc × String)) : BatchResult :=
  files.foldl (batchStep db nowYM) ⟨[], [], [], []⟩

/-!
Definitions used by the claim statements: the spec-side description of
the fuzzy resolver (for the refinement claim about `get_isin`), and the
concrete inputs of the claims' examples and counterexamples.
-/

/-- The per-key fuzzy score, shared by the source (lines 326-330) and the
spec's description: the similarity ratio, lifted to at least 0.85 when
either normalized string contains the other. -/
def claimScore (normalized key : String) : ℚ :=
  let score := seqRatio normalized key
  if strHasSub key normalized || strHasSub normalized key then pyMax score 0.85
  else score

/-- One step of `get_isin`'s fuzzy loop, named for the proofs below:
keep the first strictly greater score. -/
def fuzzyStep (n : String) (best : Option String × ℚ) (p : String × String) :
    Option String × ℚ :=
  if claimScore n p.1 > best.2 then (some p.2, claimScore n p.1) else best

/-- The resolution algorithm exactly as the spec words it, written
independently of `get_isin` to be compared with it: exact normalized-key
match first; otherwise score every catalog key, select the
first-encountered maximum, and return that entry's code when the best
score reaches the threshold, else the sentinel. -/
def specResolve (db : List (String × String)) (threshold : ℚ)
    (name : String) : String :=
  let normalized := normalizeName name
  match db.find? (fun p => p.1 = normalized) with
  | some p => p.2
  | none =>
    let best := (db.map (fun p => claimScore normalized p.1)).foldl pyMax 0
    match db.find? (fun p => claimScore normalized p.1 = best) with
    | some p => if best ≥ threshold then p.2 else "-"
    | none => "-"

/-- A dual-block table: recognized dual-block header, one data row. -/
def dualTable : List (List Cell) :=
  [[some "Scrip", some "Weight", some "Scrip", some "Weight"],
   [some "Reliance Industries", some "8.5%", some "TCS", some "6.2%"]]

/-- A single-block table whose weight cell is a parenthesized
percentage (a negative value). -/
def negTable : List (List Cell) :=
  [[some "Sr No", some "Security Name", some "% of AUM"],
   [some "1", some "Infosys", some "(1.23)%"]]

/-- A document whose only content is `negTable`. -/
def negDoc : PdfDoc := .pages [⟨"", [negTable]⟩]

/-- A single-block table whose header maps the security role to
column 0. -/
def secZeroTable : List (List Cell) :=
  [[some "Security", some "Weight"],
   [some "Abc Industries", some "5.2"]]

/-- A table carrying an extracted market value of zero. -/
def zeroMvTable : List (List Cell) :=
  [[some "Sr", some "Security", some "Weight %", some "Market Value"],
   [some "1", some "Infosys", some "5.0", some "0"]]

/-- A document carrying `zeroMvTable` and a page text stating the AUM. -/
def zeroMvDoc : PdfDoc := .pages [⟨"AUM: 1,000 Cr", [zeroMvTable]⟩]

/-- A well-formed document for the batch claims. -/
def goodDoc : PdfDoc := .pages [⟨"", [dualTable]⟩]

/-!
Helper lemmas about the fuzzy fold of `get_isin`, shared by the claims
about identifier resolution.
-/

/-- The fuzzy loop of `get_isin` is the fold of `fuzzyStep`. -/
lemma fuzzyBest_eq (db : List (String × String)) (n : String) :
    fuzzyBest db n = db.foldl (fuzzyStep n) (none, 0) := rfl

/-- The first argument bounds `pyMax` from below. -/
lemma le_pyMax_left (a b : ℚ) : a ≤ pyMax a b := by
  unfold pyMax; split
  · exact le_refl a
  · next h => exact le_of_lt (lt_of_not_ge h)

/-- The second argument bounds `pyMax` from below. -/
lemma le_pyMax_right (a b : ℚ) : b ≤ pyMax a b := by
  unfold pyMax; split
  · next h => exact h
  · exact le_refl b

/-- `pyMax` is its first argument when that one dominates. -/
lemma pyMax_eq_left {a b : ℚ} (h : b ≤ a) : pyMax a b = a := if_pos h

/-- `pyMax` is its second argument when that one strictly dominates. -/
lemma pyMax_eq_right {a b : ℚ} (h : a < b) : pyMax a b = b :=
  if_neg (not_le.mpr h)

/-- The seed of a `pyMax` fold bounds the fold from below. -/
lemma le_foldlMax : ∀ (l : List ℚ) (b : ℚ), b ≤ l.foldl pyMax b
  | [], _ => le_refl _
  | x :: t, b => le_trans (le_pyMax_left b x) (le_foldlMax t (pyMax b x))

/-- A `pyMax` fold of a list bounded by `c`, seeded below `c`, stays
below `c`. -/
lemma foldl_pyMax_le : ∀ (l : List ℚ) (b c : ℚ), b ≤ c → (∀ x ∈ l, x ≤ c) →
    l.foldl pyMax b ≤ c
  | [], _, _, hb, _ => hb
  | x :: t, b, c, hb, h => by
    have hbx : pyMax b x ≤ c := by
      unfold pyMax; split
      · exact hb
      · exact h x (List.mem_cons_self x t)
    exact foldl_pyMax_le t (pyMax b x) c hbx
      (fun y hy => h y (List.mem_cons_of_mem x hy))

/-- A `pyMax` fold of a non-empty constant list, seeded at or below the
constant, is the constant. -/
lemma foldl_pyMax_const : ∀ (l : List ℚ) (b c : ℚ), b ≤ c →
    (∀ x ∈ l, x = c) → l ≠ [] → l.foldl pyMax b = c
  | [], _, _, _, _, hne => absurd rfl hne
  | x :: t, b, c, hb, h, _ => by
    have hx : x = c := h x (List.mem_cons_self x t)
    have hbx : pyMax b x = c := by
      rw [hx]; unfold pyMax; split
      · next hge => exact le_antisymm hb hge
      · rfl
    show t.foldl pyMax (pyMax b x) = c
    cases t with
    | nil => exact hbx
    | cons y u =>
      exact foldl_pyMax_const (y :: u) (pyMax b x) c (le_of_eq hbx)
        (fun z hz => h z (List.mem_cons_of_mem x hz)) (by simp)

/-- The score carried by the fuzzy fold is the running maximum of the
scores seen so far. -/
lemma foldBest_snd (n : String) :
    ∀ (l : List (String × String)) (b : Option String × ℚ),
      (l.foldl (fuzzyStep n) b).2 =
        (l.map (fun p => claimScore n p.1)).foldl pyMax b.2
  | [], _ => rfl
  | p :: t, b => by
    have h := foldBest_snd n t (fuzzyStep n b p)
    simp only [List.foldl_cons, List.map_cons]
    rw [h]
    congr 1
    unfold fuzzyStep
    by_cases hc : claimScore n p.1 > b.2
    · rw [if_pos hc]; exact (pyMax_eq_right hc).symm
    · rw [if_neg hc]; exact (pyMax_eq_left (not_lt.mp hc)).symm

/-- The entry carried by the fuzzy fold: when the maximum does not beat
the seed the fold is the seed, and when it does the fold carries the code
of the first entry attaining the maximum. -/
lemma foldBest_fst (n : String) :
    ∀ (l : List (String × String)) (b : Option String × ℚ) (M : ℚ),
      M = (l.map (fun p => claimScore n p.1)).foldl pyMax b.2 →
      (M ≤ b.2 → l.foldl (fuzzyStep n) b = b) ∧
      (b.2 < M →
        ∃ q, l.find? (fun p => claimScore n p.1 = M) = some q ∧
          (l.foldl (fuzzyStep n) b).1 = some q.2)
  | [], b, M, hM => by
    subst hM
    exact ⟨fun _ => rfl, fun hlt => absurd hlt (by simp)⟩
  | p :: t, b, M, hM => by
    have hM' : M = (t.map (fun p => claimScore n p.1)).foldl pyMax
        (pyMax b.2 (claimScore n p.1)) := by simpa using hM
    constructor
    · intro hle
      have h1 : pyMax b.2 (claimScore n p.1) ≤ M := hM' ▸ le_foldlMax _ _
      have hfp : ¬ (claimScore n p.1 > b.2) :=
        not_lt.mpr (le_trans (le_pyMax_right _ _) (le_trans h1 hle))
      have hstep : fuzzyStep n b p = b := by unfold fuzzyStep; rw [if_neg hfp]
      have hmb : pyMax b.2 (claimScore n p.1) = b.2 :=
        pyMax_eq_left (le_trans (le_pyMax_right _ _) (le_trans h1 hle))
      have ht := (foldBest_fst n t b M (by rw [hM', hmb])).1 hle
      calc (p :: t).foldl (fuzzyStep n) b
          = t.foldl (fuzzyStep n) (fuzzyStep n b p) := rfl
        _ = t.foldl (fuzzyStep n) b := by rw [hstep]
        _ = b := ht
    · intro hlt
      by_cases hfp : claimScore n p.1 > b.2
      · have hstep : fuzzyStep n b p = (some p.2, claimScore n p.1) := by
          unfold fuzzyStep; rw [if_pos hfp]
        have hmb : pyMax b.2 (claimScore n p.1) = claimScore n p.1 :=
          pyMax_eq_right hfp
        have hM2 : M = (t.map (fun p => claimScore n p.1)).foldl pyMax
            (claimScore n p.1) := by rw [hM', hmb]
        by_cases h2 : M ≤ claimScore n p.1
        · have hMfp : claimScore n p.1 = M :=
            le_antisymm (hM2 ▸ le_foldlMax _ _) h2
          refine ⟨p, ?_, ?_⟩
          · rw [List.find?_cons_of_pos _ (by simp [hMfp])]
          · have heq := (foldBest_fst n t (some p.2, claimScore n p.1) M
              (by simpa using hM2)).1 (by simpa using h2)
            show (t.foldl (fuzzyStep n) (fuzzyStep n b p)).1 = some p.2
            rw [hstep, heq]
        · push_neg at h2
          obtain ⟨q, hq1, hq2⟩ := (foldBest_fst n t (some p.2, claimScore n p.1)
            M (by simpa using hM2)).2 (by simpa using h2)
          refine ⟨q, ?_, ?_⟩
          · rw [List.find?_cons_of_neg _ (by simp [ne_of_lt h2])]
            exact hq1
          · show (t.foldl (fuzzyStep n) (fuzzyStep n b p)).1 = some q.2
            rw [hstep]; exact hq2
      · have hstep : fuzzyStep n b p = b := by unfold fuzzyStep; rw [if_neg hfp]
        have hmb : pyMax b.2 (claimScore n p.1) = b.2 :=
          pyMax_eq_left (not_lt.mp hfp)
        obtain ⟨q, hq1, hq2⟩ :=
          (foldBest_fst n t b M (by rw [hM', hmb])).2 hlt
        refine ⟨q, ?_, ?_⟩
        · have hne : claimScore n p.1 < M := lt_of_le_of_lt (not_lt.mp hfp) hlt
          rw [List.find?_cons_of_neg _ (by simp [ne_of_lt hne])]
          exact hq1
        · show (t.foldl (fuzzyStep n) (fuzzyStep n b p)).1 = some q.2
          rw [hstep]; exact hq2

/-- The fuzzy branch of `get_isin`, in terms of the components of
`fuzzyBest`: no exact hit, and a best score reaching the threshold,
return the best entry's code. -/
lemma getIsinWith_found (db : List (String × String)) (t : ℚ) (name v : String)
    (M : ℚ) (hn : name ≠ "")
    (hfind : db.find? (fun p => p.1 = normalizeName name) = none)
    (hb2 : (fuzzyBest db (normalizeName name)).2 = M) (ht : M ≥ t)
    (hb1 : (fuzzyBest db (normalizeName name)).1 = some v) :
    getIsinWith db t name = v := by
  unfold getIsinWith
  rw [if_neg hn]
  simp only [hfind, hb2, if_pos ht, hb1, Option.getD_some]

/-- The fuzzy branch of the spec-side resolver: no exact hit, a best
score `M` reaching the threshold, and `q` the first entry attaining `M`,
return `q`'s code. -/
lemma specResolve_found (db : List (String × String)) (t : ℚ) (name : String)
    (q : String × String) (M : ℚ)
    (hfind : db.find? (fun p => p.1 = normalizeName name) = none)
    (hM : (db.map (fun p => claimScore (normalizeName name) p.1)).foldl pyMax 0
      = M)
    (hsel : db.find? (fun p => claimScore (normalizeName name) p.1 = M) =
      some q)
    (ht : M ≥ t) : specResolve db t name = q.2 := by
  unfold specResolve
  simp only [hfind, hM, hsel, if_pos ht]

/-- C4 (amended: restricted to non-empty input names, which is what the
counterexample forces).  For every non-empty input name, `get_isin` at
its default threshold behaves exactly as the spec describes: an exact
normalized-key hit returns that key's code (exact match beats fuzzy);
otherwise every catalog key is scored (a substring relationship in either
direction lifting the score to at least 0.85), the first-encountered
maximum is selected, and its code is returned when the best score is at
least 0.80, else the sentinel `-`. -/
theorem claim_C4 (db : List (String × String)) (name : String)
    (hn : name ≠ "") : getIsin db name = specResolve db 0.8 name := by
  simp only [getIsin, getIsinWith, specResolve, if_neg hn]
  cases hfind : db.find? (fun p => p.1 = normalizeName name) with
  | some p => simp only [hfind]
  | none =>
    simp only [hfind]
    have hsnd : (fuzzyBest db (normalizeName name)).2 =
        (db.map (fun p => claimScore (normalizeName name) p.1)).foldl pyMax 0 := by
      rw [fuzzyBest_eq]
      exact foldBest_snd (normalizeName name) db (none, 0)
    by_cases hth :
        (db.map (fun p => claimScore (normalizeName name) p.1)).foldl pyMax 0 ≥ 0.8
    · have hpos : ((none, (0 : ℚ)) : Option String × ℚ).2 <
          (db.map (fun p => claimScore (normalizeName name) p.1)).foldl pyMax 0 :=
        lt_of_lt_of_le (by norm_num) hth
      obtain ⟨q, hq1, hq2⟩ :=
        (foldBest_fst (normalizeName name) db (none, 0)
          ((db.map (fun p => claimScore (normalizeName name) p.1)).foldl pyMax 0)
          rfl).2 hpos
      simp only [hq1]
      rw [if_pos (show (fuzzyBest db (normalizeName name)).2 ≥ 0.8 by
            rw [hsnd]; exact hth),
          if_pos hth, fuzzyBest_eq, hq2]
      rfl
    · rw [if_neg (show ¬ (fuzzyBest db (normalizeName name)).2 ≥ 0.8 by
          rw [hsnd]; exact hth)]
      cases hsel : db.find? (fun p => claimScore (normalizeName name) p.1 =
          (db.map (fun p => claimScore (normalizeName name) p.1)).foldl pyMax 0) with
      | some p => simp only [hsel]; rw [if_neg hth]
      | none => simp only [hsel]

/-- C4 witness: the amended theorem applied at a concrete non-empty
name. -/
theorem claim_C4_witness :
    getIsin builtinIsinDb "HDFC Bank Ltd" =
      specResolve builtinIsinDb 0.8 "HDFC Bank Ltd" :=
  claim_C4 builtinIsinDb "HDFC Bank Ltd" (by decide)

/-- C4 counterexample: at the empty input name the claim's description
yields the first catalog entry's code (the empty normalized string is a
substring of every key), but `get_isin` short-circuits to the
sentinel. -/
theorem claim_C4_counterexample :
    getIsin builtinIsinDb "" = "-" ∧
      specResolve builtinIsinDb 0.8 "" = "INE040A01034" ∧
      ("-" : String) ≠ "INE040A01034" := by
  refine ⟨rfl, ?_, by decide⟩
  have hnorm : normalizeName "" = "" := rfl
  have hall : ∀ p ∈ builtinIsinDb, claimScore "" p.1 = 0.85 := by decide
  have hM : (builtinIsinDb.map (fun p => claimScore "" p.1)).foldl pyMax 0 =
      0.85 :=
    foldl_pyMax_const _ 0 0.85 (by norm_num)
      (fun x hx => by
        obtain ⟨p, hp, rfl⟩ := List.mem_map.mp hx
        exact hall p hp)
      (by decide)
  exact specResolve_found builtinIsinDb 0.8 "" ("hdfc bank", "INE040A01034")
    0.85
    (by rw [hnorm]; decide)
    (by rw [hnorm]; exact hM)
    (by rw [hnorm]; decide)
    (by norm_num)

/-- C10: a non-empty input whose normalized form is empty does not get
the sentinel: every catalog key contains the empty string, so every score
is lifted to 0.85, above the 0.80 threshold, and the code of the first
built-in entry (`hdfc bank`) is returned; only the literally empty input
short-circuits to `-`. -/
theorem claim_C10 :
    (∀ name : String, name ≠ "" → normalizeName name = "" →
      getIsin builtinIsinDb name = "INE040A01034" ∧
        getIsin builtinIsinDb name ≠ "-") ∧
      getIsin builtinIsinDb "" = "-" := by
  have hall : ∀ p ∈ builtinIsinDb, claimScore "" p.1 = 0.85 := by decide
  have hM : (builtinIsinDb.map (fun p => claimScore "" p.1)).foldl pyMax 0 =
      0.85 :=
    foldl_pyMax_const _ 0 0.85 (by norm_num)
      (fun x hx => by
        obtain ⟨p, hp, rfl⟩ := List.mem_map.mp hx
        exact hall p hp)
      (by decide)
  obtain ⟨q, hq1, hq2⟩ :=
    (foldBest_fst "" builtinIsinDb (none, 0) 0.85 hM.symm).2 (by norm_num)
  have hq : builtinIsinDb.find? (fun p => claimScore "" p.1 = (0.85 : ℚ)) =
      some ("hdfc bank", "INE040A01034") := by decide
  have hqv : q = ("hdfc bank", "INE040A01034") :=
    Option.some.inj (hq1.symm.trans hq)
  have hb2 : (fuzzyBest builtinIsinDb "").2 = 0.85 := by
    rw [fuzzyBest_eq, foldBest_snd "" builtinIsinDb (none, 0)]
    exact hM
  have hb1 : (fuzzyBest builtinIsinDb "").1 = some "INE040A01034" := by
    rw [fuzzyBest_eq, hq2, hqv]
  constructor
  · intro name hn hnorm
    have h : getIsin builtinIsinDb name = "INE040A01034" := by
      unfold getIsin
      exact getIsinWith_found builtinIsinDb 0.8 name "INE040A01034" 0.85 hn
        (by rw [hnorm]; decide)
        (by rw [hnorm]; exact hb2)
        (by norm_num)
        (by rw [hnorm]; exact hb1)
    exact ⟨h, by rw [h]; decide⟩
  · rfl

/-- C10 witness: the punctuation-only name `&` normalizes to the empty
string and resolves to the first built-in entry's code. -/
theorem claim_C10_witness :
    getIsin builtinIsinDb "&" = "INE040A01034" ∧
      getIsin builtinIsinDb "&" ≠ "-" :=
  claim_C10.1 "&" (by decide) (by decide)

/-- C8: `parse_percentage` strips the percent sign and thousands
separators and maps parenthesized values to negatives, returning `0.0`
whenever the cleaned string does not parse; `parse_number` parses the
rupee-prefixed comma-grouped amount and returns `None` for `-`, the empty
string, any casing of `NA`, and any unparsable cleaned string. -/
theorem claim_C8 :
    parsePercentage (some "(1.23)%") = -1.23 ∧
    parsePercentage (some "1,234.56%") = 1234.56 ∧
    (∀ s : String, pyFloat (percentCleaned s) = none →
      parsePercentage (some s) = 0) ∧
    parseNumber (some "₹9,001.07") = some 9001.07 ∧
    parseNumber (some "-") = none ∧
    parseNumber (some "") = none ∧
    parseNumber (some "NA") = none ∧
    parseNumber (some "nA") = none ∧
    (∀ s : String, pyLower (numberCleaned s) = "na" →
      parseNumber (some s) = none) ∧
    (∀ s : String, pyFloat (numberCleaned s) = none →
      parseNumber (some s) = none) := by
  refine ⟨by decide, by decide, ?_, by decide, by decide, by decide, by decide,
    by decide, ?_, ?_⟩
  · intro s hs
    unfold parsePercentage
    by_cases hemp : s = ""
    · subst hemp; rfl
    · rw [if_neg (by simp [cellFalsy, hemp])]
      show (pyFloat (percentCleaned s)).getD 0 = 0
      rw [hs]; rfl
  · intro s hs
    unfold parseNumber
    by_cases hemp : s = ""
    · subst hemp; rfl
    · rw [if_neg (by simp [cellFalsy, hemp])]
      show (if numberCleaned s = "-" || numberCleaned s = "" ||
          pyLower (numberCleaned s) = "na" then none
        else pyFloat (numberCleaned s)) = none
      rw [hs]
      simp
  · intro s hs
    unfold parseNumber
    by_cases hemp : s = ""
    · subst hemp; rfl
    · rw [if_neg (by simp [cellFalsy, hemp])]
      show (if numberCleaned s = "-" || numberCleaned s = "" ||
          pyLower (numberCleaned s) = "na" then none
        else pyFloat (numberCleaned s)) = none
      by_cases hmark : numberCleaned s = "-" || numberCleaned s = "" ||
          pyLower (numberCleaned s) = "na"
      · rw [if_pos hmark]
      · rw [if_neg hmark]; exact hs

/-- C8 witness: the unparsable-input conjuncts applied at concrete
unparsable strings, and the `na` conjunct at a mixed casing. -/
theorem claim_C8_witness :
    parsePercentage (some "n/a") = 0 ∧ parseNumber (some "Na") = none ∧
      parseNumber (some "??") = none :=
  ⟨claim_C8.2.2.1 "n/a" (by decide),
   claim_C8.2.2.2.2.2.2.2.2.1 "Na" (by decide),
   claim_C8.2.2.2.2.2.2.2.2.2 "??" (by decide)⟩

/-- C9: the filename `HDFC_BlueChip_202412.pdf` yields the report date
2024-12-01 (the six-digit YYYYMM token before the extension mapped to the
first day of the month, whatever the current date is) and the issuer
normalizes to the canonical label HDFC. -/
theorem claim_C9 :
    (∀ nowYM : String,
      extractDateFromFilename nowYM "HDFC_BlueChip_202412.pdf" =
        "2024-12-01") ∧
      extractAmcFromFilename "HDFC_BlueChip_202412.pdf" = "HDFC" :=
  ⟨fun _ => rfl, by decide⟩

/-- A holding accepted by a dual-block pair passed the validity filter,
has positive parsed weight and carries the stripped name cell. -/
lemma pairHoldings_mem (c w : Cell) (h : Holding) (hmem : h ∈ pairHoldings c w) :
    isValidSecurity h.security = true ∧ 0 < h.pctOfAum ∧
      h.security = pyStrip (cellStr c) := by
  simp only [pairHoldings] at hmem
  split_ifs at hmem with h1 h2 h3
  · simp at hmem
  · rw [List.mem_singleton] at hmem
    subst hmem
    simp only [Bool.and_eq_true] at h2
    exact ⟨h2.2, h3, rfl⟩
  · simp at hmem
  · simp at hmem

/-- What `_is_valid_security` accepting a name means: length between 3
and 100, at least one letter, and no structural skip label occurring in
the lower-cased stripped name. -/
lemma isValidSecurity_spec (name : String) (hv : isValidSecurity name = true) :
    3 ≤ name.length ∧ name.length ≤ 100 ∧ name.data.any Char.isAlpha = true ∧
      ∀ pat ∈ securitySkipPatterns,
        strHasSub (pyStrip (pyLower name)) pat = false := by
  simp only [isValidSecurity] at hv
  split_ifs at hv with h1 h2 h3 h4
  refine ⟨?_, ?_, ?_, ?_⟩
  · have h3' := h3
    simp only [Bool.or_eq_true, decide_eq_true_eq, not_or] at h3'
    omega
  · have h3' := h3
    simp only [Bool.or_eq_true, decide_eq_true_eq, not_or] at h3'
    omega
  · simpa using h4
  · intro pat hpat
    by_contra hsub
    exact h2 (List.any_eq_true.mpr ⟨pat, hpat, by simpa using hsub⟩)

/-- An element of the append of two conditional dual-block pair lists is
an element of one of the pair lists. -/
lemma mem_ite_pairs {h : Holding} {c1 c2 : Prop} [Decidable c1] [Decidable c2]
    {a b d e : Cell}
    (hm : h ∈ (if c1 then pairHoldings a b else []) ++
      (if c2 then pairHoldings d e else [])) :
    h ∈ pairHoldings a b ∨ h ∈ pairHoldings d e := by
  rcases List.mem_append.mp hm with hm | hm
  · left
    split at hm
    · exact hm
    · simp at hm
  · right
    split at hm
    · exact hm
    · simp at hm

/-- C6: in every layout, a "Total" entry never produces a holding: a
single-block row whose security cell strips and lower-cases to "total"
parses to nothing; a dual-block pair whose name cell strips and
lower-cases to "total" contributes nothing; and no text-fallback holding
has a name lower-casing to "total". -/
theorem claim_C6 :
    (∀ (row : List Cell) (colMap : ColMap) (cur : String) (s : String),
      row.getD (securityIdxOf colMap) none = some s →
      pyLower (pyStrip s) = "total" →
      parseHoldingRow row colMap cur = none) ∧
    (∀ (c w : Cell) (s : String), c = some s →
      pyLower (pyStrip s) = "total" → pairHoldings c w = []) ∧
    (∀ (text : String) (h : Holding), h ∈ extractHoldingsFromText text →
      pyLower h.security ≠ "total") := by
  refine ⟨?_, ?_, ?_⟩
  · intro row colMap cur s hrow htot
    have hskip : rowLabelSkips.contains (pyLower (pyStrip s)) = true := by
      rw [htot]; decide
    simp only [parseHoldingRow, hrow, cellStr]
    split
    · rfl
    · next sec heq =>
      have hsec : sec = pyStrip s := by
        split at heq
        · exact (Option.some.inj heq).symm
        · exact absurd heq (by simp)
      have hcond : (decide (sec = "") || rowLabelSkips.contains (pyLower sec))
          = true := by
        rw [hsec, hskip, Bool.or_true]
      rw [if_pos hcond]
  · intro c w s hc htot
    subst hc
    have hne : ¬ (pyStrip s = "") := by
      intro hemp
      rw [hemp] at htot
      exact absurd htot (by decide)
    have hlow : pyStrip (pyLower (pyStrip s)) = "total" := by
      rw [htot]; decide
    have hany : (securitySkipPatterns.any
        fun pat => strHasSub (pyStrip (pyLower (pyStrip s))) pat) = true :=
      List.any_eq_true.mpr ⟨"total", by decide, by rw [hlow]; decide⟩
    have hval : isValidSecurity (pyStrip s) = false := by
      simp only [isValidSecurity]
      rw [if_neg hne, if_pos hany]
    by_cases hsem : s = ""
    · simp [pairHoldings, cellFalsy, hsem]
    · have hfal : cellFalsy (some s) = false := by simp [cellFalsy, hsem]
      simp only [pairHoldings, hfal, cellStr]
      rw [if_neg (by simp), if_neg (by rw [hval]; simp)]
  · intro text h hmem
    simp only [extractHoldingsFromText, List.mem_filterMap] at hmem
    obtain ⟨gs, _, hgs⟩ := hmem
    split_ifs at hgs with h1 h2
    obtain rfl : _ = h := Option.some.inj hgs
    intro htot
    simp only at htot
    exact h2 (List.any_eq_true.mpr ⟨"total", by decide, by
      rw [htot]; decide⟩)

/-- C6 witness: a single-block row and a dual-block pair with a
mixed-case "Total" cell produce nothing. -/
theorem claim_C6_witness :
    parseHoldingRow [some " Total ", some "5.0"] emptyColMap "Unknown" =
        none ∧
      pairHoldings (some "ToTaL") (some "5.0") = [] :=
  ⟨claim_C6.1 [some " Total ", some "5.0"] emptyColMap "Unknown" " Total "
      (by decide) (by decide),
   claim_C6.2.1 (some "ToTaL") (some "5.0") "ToTaL" rfl (by decide)⟩

/-- C7: the dual-block example table yields exactly the two holdings with
weights 8.5 and 6.2, and in general a dual-block pair is accepted only
when the name has length 3 to 100, contains a letter, matches no
structural skip label, and the parsed weight is positive. -/
theorem claim_C7 :
    processTables [dualTable] "" =
      [⟨"Reliance Industries", "", "Unknown", 8.5, none, none⟩,
       ⟨"TCS", "", "Unknown", 6.2, none, none⟩] ∧
    (∀ (c w : Cell) (h : Holding), h ∈ pairHoldings c w →
      3 ≤ h.security.length ∧ h.security.length ≤ 100 ∧
      h.security.data.any Char.isAlpha = true ∧
      (∀ pat ∈ securitySkipPatterns,
        strHasSub (pyStrip (pyLower h.security)) pat = false) ∧
      0 < h.pctOfAum) := by
  constructor
  · decide
  · intro c w h hmem
    obtain ⟨hval, hpct, _⟩ := pairHoldings_mem c w h hmem
    obtain ⟨h3, h100, halpha, hskip⟩ := isValidSecurity_spec h.security hval
    exact ⟨h3, h100, halpha, hskip, hpct⟩

/-- C7 witness: the general pair condition applied at the example's first
pair. -/
theorem claim_C7_witness :
    3 ≤ (("Reliance Industries" : String)).length ∧
      (("Reliance Industries" : String)).length ≤ 100 ∧
      ("Reliance Industries" : String).data.any Char.isAlpha = true ∧
      (∀ pat ∈ securitySkipPatterns,
        strHasSub (pyStrip (pyLower "Reliance Industries")) pat = false) ∧
      0 < (⟨"Reliance Industries", "", "Unknown", 8.5, none, none⟩ :
        Holding).pctOfAum :=
  claim_C7.2 (some "Reliance Industries") (some "8.5%")
    ⟨"Reliance Industries", "", "Unknown", 8.5, none, none⟩ (by decide)

/-- C2 (amended: the invariant holds for the dual-block and text-fallback
paths, whose guards require a positive weight; a single-block row can
carry a negative weight when its percentage cell is parenthesized, as the
counterexample shows). -/
theorem claim_C2 :
    (∀ (table : List (List Cell)) (headerIdx : Nat) (h : Holding),
      h ∈ parseTwoColumnTable table headerIdx → 0 < h.pctOfAum) ∧
    (∀ (text : String) (h : Holding),
      h ∈ extractHoldingsFromText text → 0 < h.pctOfAum) := by
  constructor
  · intro table headerIdx h hmem
    simp only [parseTwoColumnTable, List.mem_flatMap] at hmem
    obtain ⟨row, _, hrow⟩ := hmem
    split at hrow
    · simp at hrow
    · rcases mem_ite_pairs hrow with hm | hm <;>
        exact (pairHoldings_mem _ _ h hm).2.1
  · intro text h hmem
    simp only [extractHoldingsFromText, List.mem_filterMap] at hmem
    obtain ⟨gs, _, hgs⟩ := hmem
    split_ifs at hgs with h1 h2
    obtain rfl : _ = h := Option.some.inj hgs
    simp only [Bool.or_eq_true, decide_eq_true_eq, not_or] at h1
    exact not_le.mp h1.2

/-- C2 witness: the positivity conclusion at a concrete dual-block
holding. -/
theorem claim_C2_witness :
    0 < (⟨"TCS", "", "Unknown", 6.2, none, none⟩ : Holding).pctOfAum :=
  claim_C2.1 dualTable 0 ⟨"TCS", "", "Unknown", 6.2, none, none⟩ (by decide)

/-- C2 counterexample: a document whose single-block table carries the
parenthesized weight `(1.23)%` produces a holding with weight −1.23,
violating weight ≥ 0. -/
theorem claim_C2_counterexample :
    (processPdf builtinIsinDb "2099-09-01" negDoc
        "Fund_X_202401.pdf").holdings =
      [⟨"2024-01-01", "Fund", "Unknown Fund", "Infosys", "INE009A01021",
        "Information Technology", -1.23, none, none⟩] ∧
      (⟨"2024-01-01", "Fund", "Unknown Fund", "Infosys", "INE009A01021",
        "Information Technology", -1.23, none, none⟩ :
        HoldingRecord).pctOfAum < 0 :=
  ⟨by decide, by decide⟩

/-- C5 (amended: the pipeline computes the value only when the weight is
positive and no truthy value was extracted — an extracted value of 0.0
counts as absent and is overwritten, which is what the counterexample
forces; a nonzero extracted value is kept and a holding with
non-positive weight or without a known AUM keeps its value). -/
theorem claim_C5 :
    (∀ (a : ℚ) (h : Holding), a ≠ 0 → 0 < h.pctOfAum →
      (h.marketValue = none ∨ h.marketValue = some 0) →
      computeMarketValue (some a) h =
        some (round2 (h.pctOfAum / 100 * a))) ∧
    (∀ (a : ℚ) (h : Holding) (v : ℚ), h.marketValue = some v → v ≠ 0 →
      computeMarketValue (some a) h = some v) ∧
    (∀ (aum : Option ℚ) (h : Holding), h.pctOfAum ≤ 0 →
      computeMarketValue aum h = h.marketValue) ∧
    (∀ h : Holding, computeMarketValue none h = h.marketValue) ∧
    computeMarketValue (some 1000)
      ⟨"Sample", "", "Unknown", 10, none, none⟩ = some 100 := by
  refine ⟨?_, ?_, ?_, ?_, by decide⟩
  · intro a h ha hpct hmv
    unfold computeMarketValue
    have h1 : ratFalsy (some a) = false := by simp [ratFalsy, ha]
    rw [if_pos (by simp [h1, hpct])]
    rw [if_pos (by rcases hmv with hmv | hmv <;> simp [ratFalsy, hmv])]
    rfl
  · intro a h v hv hvne
    unfold computeMarketValue
    by_cases hcond : (!ratFalsy (some a) && decide (h.pctOfAum > 0)) = true
    · rw [if_pos hcond, if_neg (by simp [ratFalsy, hv, hvne])]
      exact hv
    · rw [if_neg hcond]
      exact hv
  · intro aum h hpct
    unfold computeMarketValue
    rw [if_neg (by
      simp only [Bool.and_eq_true, decide_eq_true_eq, not_and]
      exact fun _ => not_lt.mpr hpct)]
  · intro h
    unfold computeMarketValue
    rw [if_neg (by simp [ratFalsy])]

/-- C5 witness: the computation clause at the claim's example — weight 10,
AUM 1000, no pre-set value. -/
theorem claim_C5_witness :
    computeMarketValue (some 1000) ⟨"Wit", "", "Unknown", 10, none, none⟩ =
      some (round2 ((⟨"Wit", "", "Unknown", 10, none, none⟩ :
        Holding).pctOfAum / 100 * 1000)) :=
  claim_C5.1 1000 ⟨"Wit", "", "Unknown", 10, none, none⟩ (by decide)
    (by decide) (Or.inl rfl)

/-- C5 counterexample: the table extracts a market value of 0.0 for the
row, the document's AUM is known, and the pipeline OVERWRITES the
extracted value with the computed 50.0 instead of leaving it
unchanged. -/
theorem claim_C5_counterexample :
    parseNumber (some "0") = some 0 ∧
      (processPdf builtinIsinDb "2099-09-01" zeroMvDoc
        "Fund_X_202401.pdf").holdings =
        [⟨"2024-01-01", "Fund", "Unknown Fund", "Infosys", "INE009A01021",
          "Information Technology", 5, some 50, none⟩] ∧
      some (50 : ℚ) ≠ some (0 : ℚ) :=
  ⟨by decide, by decide, by decide⟩

/-- C3: evaluation at the failing input.  `_map_columns` maps the
security role of the header `["Security", "Weight"]` to column 0 and the
weight to column 1, and `_parse_holding_row` would happily parse the data
row with that map, yet `_process_tables` rejects the whole table and
yields no holdings: at line 681 `col_map.get('security')` is the falsy
index 0, so a table whose security column is column 0 is treated as
having no security mapping. -/
theorem claim_C3 :
    mapColumns [some "Security", some "Weight"] =
        ⟨some 0, none, none, some 1, none, none⟩ ∧
      parseHoldingRow [some "Abc Industries", some "5.2"]
        (mapColumns [some "Security", some "Weight"]) "Unknown" =
        some ⟨"Abc Industries", "", "Unknown", 5.2, none, none⟩ ∧
      processTables [secZeroTable] "" = [] :=
  ⟨by decide, by decide, by decide⟩

/-- `process_pdf` always reports success: its try body cannot raise, as
every callee catches its own exceptions. -/
lemma processPdf_success (db : List (String × String)) (nowYM : String)
    (doc : PdfDoc) (fn : String) :
    (processPdf db nowYM doc fn).success = true := rfl

/-- One batch step keeps the error list (the document succeeded) and
appends the document's holdings. -/
lemma batchStep_fields (db : List (String × String)) (nowYM : String)
    (acc : BatchResult) (pf : PdfDoc × String) :
    (batchStep db nowYM acc pf).errors = acc.errors ∧
      (batchStep db nowYM acc pf).holdings =
        acc.holdings ++ (processPdf db nowYM pf.1 pf.2).holdings :=
  ⟨rfl, rfl⟩

/-- The batch fold collects no errors and concatenates the per-document
holdings in order. -/
lemma batch_foldl (db : List (String × String)) (nowYM : String) :
    ∀ (files : List (PdfDoc × String)) (acc : BatchResult),
      (files.foldl (batchStep db nowYM) acc).errors = acc.errors ∧
      (files.foldl (batchStep db nowYM) acc).holdings =
        acc.holdings ++
          files.flatMap (fun pf => (processPdf db nowYM pf.1 pf.2).holdings)
  | [], acc => by simp
  | pf :: t, acc => by
    obtain ⟨ih1, ih2⟩ := batch_foldl db nowYM t (batchStep db nowYM acc pf)
    obtain ⟨h1, h2⟩ := batchStep_fields db nowYM acc pf
    have hfm : (pf :: t).flatMap
        (fun pf => (processPdf db nowYM pf.1 pf.2).holdings) =
        (processPdf db nowYM pf.1 pf.2).holdings ++
          t.flatMap (fun pf => (processPdf db nowYM pf.1 pf.2).holdings) := rfl
    refine ⟨?_, ?_⟩
    · rw [List.foldl_cons, ih1, h1]
    · rw [List.foldl_cons, ih2, h2, hfm, List.append_assoc]

/-- C1 (amended: the open/parse failure of a corrupt document is caught
inside `extract_portfolio_table` and only logged, so the batch reports NO
error entry — not one).  For every batch: the combined error list is
empty, the combined holdings are exactly the concatenation of every
document's holdings (the other documents' holdings are unchanged), and a
document that cannot be opened contributes zero holdings; no exception
propagates. -/
theorem claim_C1 (db : List (String × String)) (nowYM : String)
    (files : List (PdfDoc × String)) :
    (processMultiplePdfs db nowYM files).errors = [] ∧
      (processMultiplePdfs db nowYM files).holdings =
        files.flatMap (fun pf => (processPdf db nowYM pf.1 pf.2).holdings) ∧
      (∀ pf ∈ files, pf.1 = PdfDoc.corrupt →
        (processPdf db nowYM pf.1 pf.2).holdings = []) := by
  obtain ⟨h1, h2⟩ := batch_foldl db nowYM files ⟨[], [], [], []⟩
  refine ⟨h1, by simpa using h2, ?_⟩
  intro pf _ hcor
  rw [hcor]
  rfl

/-- C1 witness: the amended theorem applied to a one-document batch whose
document is corrupt. -/
theorem claim_C1_witness :
    (processMultiplePdfs builtinIsinDb "2099-09-01"
        [(PdfDoc.corrupt, "bad.pdf")]).errors = [] ∧
      (processPdf builtinIsinDb "2099-09-01" PdfDoc.corrupt
        "bad.pdf").holdings = [] :=
  ⟨(claim_C1 builtinIsinDb "2099-09-01" [(PdfDoc.corrupt, "bad.pdf")]).1,
   (claim_C1 builtinIsinDb "2099-09-01" [(PdfDoc.corrupt, "bad.pdf")]).2.2
     (PdfDoc.corrupt, "bad.pdf") (List.mem_singleton.mpr rfl) rfl⟩

/-- C1 counterexample: a two-document batch whose second document cannot
be opened yields the first document's two holdings and an EMPTY combined
error list — not the single error entry referencing `bad.pdf` that the
claim demands. -/
theorem claim_C1_counterexample :
    (processMultiplePdfs builtinIsinDb "2099-09-01"
        [(goodDoc, "Good_Fund_202401.pdf"),
         (PdfDoc.corrupt, "bad.pdf")]).errors = [] ∧
      (processMultiplePdfs builtinIsinDb "2099-09-01"
        [(goodDoc, "Good_Fund_202401.pdf"),
         (PdfDoc.corrupt, "bad.pdf")]).holdings.length = 2 :=
  ⟨(batch_foldl builtinIsinDb "2099-09-01"
      [(goodDoc, "Good_Fund_202401.pdf"), (PdfDoc.corrupt, "bad.pdf")]
      ⟨[], [], [], []⟩).1,
   by decide⟩

end MiraiMF
